import Mathlib

/-!
# PLTHook (`plthook.cpp`): a shallow embedding and its verification

The embedding follows `src/plthook.cpp` for a 64-bit little-endian target
(`__SIZEOF_POINTER__ == 8`, so `ElfW(type)` is `Elf64_type`).

* The process image that the code reaches through raw addresses (dynamic array,
  relocation records, symbol records, string table, dispatch table) is one flat
  byte-addressed memory `Mem`; every address computation is reduced modulo `2^64`.
* The C++ objects owned by the caller (the `QwanPLT` record allocated by `new`, the
  `std::string` argument, the `void**` output slot) are values: the word stored through
  `old_func` is reported in the result record.
* The two `mprotect` calls and `sysconf(_SC_PAGESIZE)` are platform calls; their outcomes
  are inputs (`Platform`).  The loader calls used by `qwanplt_open` are inputs (`Loader`).
* Not modelled: access faults on protected pages, and the release of the module and of the
  handle storage on the failure paths of `qwanplt_open` and in `qwanplt_close`.
-/

namespace PLTHook

/-! ## Machine words and memory -/

/-- Number of distinct addresses of the 64-bit target. -/
abbrev W64 : Nat := 18446744073709551616

/-- One byte (`unsigned char`). -/
abbrev Byte := Fin 256

/-- Flat byte-addressed memory. -/
abbrev Mem := Nat → Byte

/-- Low byte of a number. -/
def lowByte (v : Nat) : Byte := ⟨v % 256, Nat.mod_lt _ (by decide)⟩

/-- Single byte store. -/
def store8 (m : Mem) (a : Nat) (b : Byte) : Mem := fun x => if x = a then b else m x

/-- Little-endian load of `n` bytes starting at address `a` (addresses wrap at `2^64`). -/
def loadLE (m : Mem) : Nat → Nat → Nat
  | 0, _ => 0
  | n + 1, a => (m (a % W64)).val + 256 * loadLE m n ((a + 1) % W64)

/-- Little-endian store of the low `n` bytes of `v` starting at address `a`. -/
def storeLE (m : Mem) : Nat → Nat → Nat → Mem
  | 0, _, _ => m
  | n + 1, a, v => storeLE (store8 m (a % W64) (lowByte v)) n ((a + 1) % W64) (v / 256)

/-- Load of a 64-bit word (`Elf64_Addr`, `Elf64_Xword`). -/
def load64 (m : Mem) (a : Nat) : Nat := loadLE m 8 a

/-- Load of a 32-bit word (`Elf64_Word`). -/
def load32 (m : Mem) (a : Nat) : Nat := loadLE m 4 a

/-- Store of a 64-bit word. -/
def store64 (m : Mem) (a v : Nat) : Mem := storeLE m 8 a v

/-- The byte addresses occupied by the 64-bit word at address `a`. -/
def inWord (a x : Nat) : Prop := ∃ t, t < 8 ∧ x = (a + t) % W64

instance (a x : Nat) : Decidable (inWord a x) :=
  inferInstanceAs (Decidable (∃ t, t < 8 ∧ x = (a + t) % W64))

/-! ## Constants of the platform headers

`<elf.h>` and `<sys/mman.h>` are system headers, not part of the repository; the values
below are the ones fixed by the System V ABI and Linux. -/

/-- Tag `DT_NULL` of `<elf.h>`. -/
def DT_NULL : Nat := 0
/-- Tag `DT_PLTRELSZ` of `<elf.h>`. -/
def DT_PLTRELSZ : Nat := 2
/-- Tag `DT_PLTGOT` of `<elf.h>`. -/
def DT_PLTGOT : Nat := 3
/-- Tag `DT_STRTAB` of `<elf.h>`. -/
def DT_STRTAB : Nat := 5
/-- Tag `DT_SYMTAB` of `<elf.h>`. -/
def DT_SYMTAB : Nat := 6
/-- Tag `DT_JMPREL` of `<elf.h>`. -/
def DT_JMPREL : Nat := 23
/-- Program header type `PT_DYNAMIC` of `<elf.h>`. -/
def PT_DYNAMIC : Nat := 2
/-- Value of `sizeof(Elf64_Rela)`: `r_offset`, `r_info`, `r_addend`, 8 bytes each. -/
def sizeof_Rela : Nat := 24
/-- Value of `sizeof(Elf64_Sym)`. -/
def sizeof_Sym : Nat := 24
/-- Value of `sizeof(Elf64_Dyn)`: `d_tag` and `d_un`, 8 bytes each. -/
def sizeof_Dyn : Nat := 16
/-- Value of `sizeof(Elf64_Addr)`. -/
def sizeof_Addr : Nat := 8
/-- Flag `PROT_READ` of `<sys/mman.h>`. -/
def PROT_READ : Nat := 1
/-- Flag `PROT_WRITE` of `<sys/mman.h>`. -/
def PROT_WRITE : Nat := 2

/-- Macro `ELF64_R_SYM(i)` of `<elf.h>`: `(i) >> 32`. -/
def ELF_R_SYM (r_info : Nat) : Nat := r_info / 2 ^ 32

/-! ## The handle and the process state -/

/-- The record `struct QwanPLT`; pointers are addresses, `0` is `nullptr`. -/
structure QwanPLT where
  handle : Nat
  dynamic : Nat
  symtab : Nat
  strtab : Nat
  plt_rela : Nat
  plt_got : Nat
  plt_rela_size : Nat
  deriving DecidableEq, Repr

/-- The object `std::runtime_error`, carrying its message bytes. -/
structure runtime_error where
  what : List Byte
  deriving DecidableEq, Repr

/-- Bytes of an ASCII string literal. -/
def lit (s : String) : List Byte := s.toList.map (fun c => lowByte c.toNat)

/-- Process state touched by `qwanplt_replace`: memory contents and the protection flags
of every address. -/
structure Proc where
  mem : Mem
  prot : Nat → Nat

/-- Platform answers during one `qwanplt_replace` call: the page size returned by
`sysconf(_SC_PAGESIZE)` and whether each of the two `mprotect` calls is granted. -/
structure Platform where
  page_size : Nat
  unprotect_ok : Bool
  restore_ok : Bool

/-- The call `mprotect(addr, len, flags)`: when granted it returns `0` and sets the flags of
`[addr, addr + len)`; when refused it returns `-1` and changes nothing. -/
def mprotect (p : Proc) (addr len flags : Nat) (granted : Bool) : Int × Proc :=
  if granted then
    (0, { p with prot := fun a => if addr ≤ a ∧ a < addr + len then flags else p.prot a })
  else (-1, p)

/-! ## `qwanplt_replace` -/

/-- The call `strcmp(func_name.c_str(), p)`: `c_str()` ends at the first NUL byte of the
string contents or at the terminator appended after them. -/
def strcmp (m : Mem) : List Byte → Nat → Int
  | [], p => 0 - ((m (p % W64)).val : Int)
  | c :: cs, p =>
    if c.val = 0 then 0 - ((m (p % W64)).val : Int)
    else if c = m (p % W64) then strcmp m cs ((p + 1) % W64)
    else (c.val : Int) - ((m (p % W64)).val : Int)

/-- Address `&hook->plt_rela[i]`. -/
def rela_addr (hook : QwanPLT) (i : Nat) : Nat := (hook.plt_rela + sizeof_Rela * i) % W64

/-- Field `rela->r_offset` of relocation record `i`. -/
def r_offset (hook : QwanPLT) (m : Mem) (i : Nat) : Nat := load64 m (rela_addr hook i)

/-- Field `rela->r_info` of relocation record `i`. -/
def r_info (hook : QwanPLT) (m : Mem) (i : Nat) : Nat :=
  load64 m ((rela_addr hook i + 8) % W64)

/-- Address `&hook->symtab[sym_index]`. -/
def sym_addr (hook : QwanPLT) (sym_index : Nat) : Nat :=
  (hook.symtab + sizeof_Sym * sym_index) % W64

/-- Address `hook->strtab + sym->st_name` for relocation record `i` (`st_name` is the
first field of `Elf64_Sym`, an `Elf64_Word`). -/
def name_ptr (hook : QwanPLT) (m : Mem) (i : Nat) : Nat :=
  (hook.strtab + load32 m (sym_addr hook (ELF_R_SYM (r_info hook m i)))) % W64

/-- Address `hook->plt_got + (rela->r_offset / sizeof(ElfW(Addr)))`, `plt_got` being a
pointer to `Elf64_Addr`. -/
def got_entry (hook : QwanPLT) (m : Mem) (i : Nat) : Nat :=
  (hook.plt_got + sizeof_Addr * (r_offset hook m i / sizeof_Addr)) % W64

/-- The mask `~(page_size - 1)` in `size_t` arithmetic. -/
def page_mask (page_size : Nat) : Nat := (W64 - 1) - (page_size + W64 - 1) % W64

/-- The address `(uintptr_t)got_entry & ~(page_size - 1)`. -/
def page_start (page_size addr : Nat) : Nat := addr &&& page_mask page_size

/-- What one call of `qwanplt_replace` leaves behind: the returned value or the thrown
exception, the word stored through `old_func` (if any store happened), the handle and the
process state. -/
structure ReplaceResult where
  ret : Except runtime_error Int
  old_func : Option Nat
  hook : QwanPLT
  proc : Proc

/-- Body of `qwanplt_replace` once the scan has reached a matching record `i`. -/
def patch (pf : Platform) (hook : QwanPLT) (hook_func : Nat) (want_old : Bool) (p : Proc)
    (i : Nat) : ReplaceResult :=
  let slot := got_entry hook p.mem i
  let old := if want_old then some (load64 p.mem slot) else none
  let start := page_start pf.page_size slot
  let r1 := mprotect p start pf.page_size (PROT_READ ||| PROT_WRITE) pf.unprotect_ok
  if r1.1 ≠ 0 then
    { ret := .error ⟨lit "mprotect failed"⟩, old_func := old, hook := hook, proc := r1.2 }
  else
    let p2 : Proc := { r1.2 with mem := store64 r1.2.mem slot hook_func }
    let r2 := mprotect p2 start pf.page_size PROT_READ pf.restore_ok
    if r2.1 ≠ 0 then
      { ret := .error ⟨lit "mprotect restore failed"⟩, old_func := old, hook := hook,
        proc := r2.2 }
    else
      { ret := .ok 0, old_func := old, hook := hook, proc := r2.2 }

/-- The scan `for (size_t i = ...; i < hook->plt_rela_size; ++i)`, with `todo` records left
to examine starting at index `i`. -/
def replace_loop (pf : Platform) (hook : QwanPLT) (func_name : List Byte) (hook_func : Nat)
    (want_old : Bool) (p : Proc) : Nat → Nat → ReplaceResult
  | 0, _ =>
    { ret := .error ⟨lit "Function " ++ func_name ++ lit " not found in PLT"⟩,
      old_func := none, hook := hook, proc := p }
  | todo + 1, i =>
    if strcmp p.mem func_name (name_ptr hook p.mem i) = 0 then
      patch pf hook hook_func want_old p i
    else replace_loop pf hook func_name hook_func want_old p todo (i + 1)

/-- The function `qwanplt_replace(hook, func_name, hook_func, old_func)`; `want_old` says
whether `old_func` is non-null. -/
def qwanplt_replace (pf : Platform) (hook : QwanPLT) (func_name : List Byte)
    (hook_func : Nat) (want_old : Bool) (p : Proc) : ReplaceResult :=
  replace_loop pf hook func_name hook_func want_old p hook.plt_rela_size 0

/-! ## `qwanplt_open` -/

/-- One program header (`Elf64_Phdr`), reduced to the fields the code reads. -/
structure Phdr where
  p_type : Nat
  p_vaddr : Nat
  deriving DecidableEq, Repr

/-- One loaded module as shown to the `dl_iterate_phdr` callback (`struct dl_phdr_info`
of `<link.h>`): load bias, path name and program headers; `dlpi_phnum` is the length of
`dlpi_phdr`. -/
structure dl_phdr_info where
  dlpi_addr : Nat
  dlpi_name : List Byte
  dlpi_phdr : List Phdr
  deriving DecidableEq, Repr

/-- Answers of the dynamic loader during one `qwanplt_open` call: the value returned by
`dlopen` for a library name (`none` stands for the `nullptr` argument), the text of
`dlerror()`, whether `dlsym` finds `dl_iterate_phdr`, and the loaded modules in the order
in which `dl_iterate_phdr` visits them. -/
structure Loader where
  dlopen : Option (List Byte) → Nat
  dlerror : List Byte
  has_dl_iterate_phdr : Bool
  modules : List dl_phdr_info

/-- Body of the callback lambda: the loop over the program headers of one module.  It
returns `1` after recording the first `PT_DYNAMIC` header, `0` when there is none. -/
def callback_loop (dlpi_addr : Nat) (hook : QwanPLT) : List Phdr → Int × QwanPLT
  | [] => (0, hook)
  | ph :: rest =>
    if ph.p_type = PT_DYNAMIC then
      (1, { hook with dynamic := (dlpi_addr + ph.p_vaddr) % W64 })
    else callback_loop dlpi_addr hook rest

/-- The callback lambda handed to `dl_iterate_phdr`. -/
def callback (info : dl_phdr_info) (hook : QwanPLT) : Int × QwanPLT :=
  callback_loop info.dlpi_addr hook info.dlpi_phdr

/-- The loader facility `dl_iterate_phdr`: it calls the callback on every loaded module in
turn and stops at the first call that returns a non-zero value. -/
def dl_iterate_phdr (cb : dl_phdr_info → QwanPLT → Int × QwanPLT) :
    List dl_phdr_info → QwanPLT → QwanPLT
  | [], hook => hook
  | info :: rest, hook =>
    let r := cb info hook
    if r.1 ≠ 0 then r.2 else dl_iterate_phdr cb rest r.2

/-- One step of the `switch (dyn->d_tag)` of the metadata walk. -/
def dyn_case (hook : QwanPLT) (d_tag d_un : Nat) : QwanPLT :=
  if d_tag = DT_SYMTAB then { hook with symtab := d_un }
  else if d_tag = DT_STRTAB then { hook with strtab := d_un }
  else if d_tag = DT_JMPREL then { hook with plt_rela := d_un }
  else if d_tag = DT_PLTRELSZ then { hook with plt_rela_size := d_un / sizeof_Rela }
  else if d_tag = DT_PLTGOT then { hook with plt_got := d_un }
  else hook

/-- The walk `for (dyn = hook->dynamic; dyn->d_tag != DT_NULL; ++dyn)`.  The result is
`none` when the terminating tag is not reached within `fuel` records. -/
def dyn_walk (m : Mem) : Nat → Nat → QwanPLT → Option QwanPLT
  | 0, _, _ => none
  | fuel + 1, dyn, hook =>
    let d_tag := load64 m dyn
    if d_tag = DT_NULL then some hook
    else
      dyn_walk m fuel ((dyn + sizeof_Dyn) % W64)
        (dyn_case hook d_tag (load64 m ((dyn + 8) % W64)))

/-- Lines 32-70 of `qwanplt_open`: the handle is initialised, the module is obtained with
`dlopen`, `dl_iterate_phdr` is looked up and run with the callback, and the recorded
`dynamic` pointer is tested. -/
def discover (ld : Loader) (library_name : List Byte) : Except runtime_error QwanPLT :=
  let hook : QwanPLT :=
    { handle := 0, dynamic := 0, symtab := 0, strtab := 0, plt_rela := 0, plt_got := 0,
      plt_rela_size := 0 }
  let hook := { hook with
    handle := ld.dlopen (if library_name.isEmpty then none else some library_name) }
  if hook.handle = 0 then
    .error ⟨lit "dlopen failed: " ++ ld.dlerror⟩
  else if ld.has_dl_iterate_phdr = false then
    .error ⟨lit "dl_iterate_phdr not found"⟩
  else
    let hook := dl_iterate_phdr callback ld.modules hook
    if hook.dynamic = 0 then
      .error ⟨lit "Failed to find PT_DYNAMIC"⟩
    else .ok hook

/-- The function `qwanplt_open(library_name)`: `some (.ok hook)` when it returns a handle,
`some (.error e)` when it throws, `none` when the metadata walk does not end within `fuel`
records. -/
def qwanplt_open (ld : Loader) (m : Mem) (fuel : Nat) (library_name : List Byte) :
    Option (Except runtime_error QwanPLT) :=
  match discover ld library_name with
  | .error e => some (.error e)
  | .ok hook =>
    match dyn_walk m fuel hook.dynamic hook with
    | none => none
    | some hook =>
      if hook.symtab = 0 ∨ hook.strtab = 0 ∨ hook.plt_rela = 0 ∨ hook.plt_got = 0 then
        some (.error ⟨lit "Failed to find required ELF sections"⟩)
      else some (.ok hook)

/-! ## Notions used to state the properties -/

/-- Relocation record `i` passes the test of the scan. -/
def entry_matches (hook : QwanPLT) (func_name : List Byte) (m : Mem) (i : Nat) : Prop :=
  strcmp m func_name (name_ptr hook m i) = 0

instance (hook : QwanPLT) (func_name : List Byte) (m : Mem) (i : Nat) :
    Decidable (entry_matches hook func_name m i) :=
  inferInstanceAs (Decidable (strcmp m func_name (name_ptr hook m i) = 0))

/-- Record `i` is the first record of `[0, plt_rela_size)` that passes the test. -/
def first_match (hook : QwanPLT) (func_name : List Byte) (m : Mem) (i : Nat) : Prop :=
  i < hook.plt_rela_size ∧ entry_matches hook func_name m i ∧
    ∀ j, j < i → ¬ entry_matches hook func_name m j

instance (hook : QwanPLT) (func_name : List Byte) (m : Mem) (i : Nat) :
    Decidable (first_match hook func_name m i) :=
  inferInstanceAs (Decidable (_ ∧ _ ∧ _))

/-- The exception thrown when the scan ends without a match. -/
def not_found_error (func_name : List Byte) : runtime_error :=
  ⟨lit "Function " ++ func_name ++ lit " not found in PLT"⟩

/-- The C string designated by `c_str()`: the contents up to the first NUL byte. -/
def c_str (s : List Byte) : List Byte := s.takeWhile (fun c => c ≠ 0)

/-- The null-terminated name found at address `p` is `s`: the bytes of `s`, none of them
NUL, stand at `p, p + 1, ...` and are followed by a NUL byte. -/
def cstring_at (m : Mem) : Nat → List Byte → Prop
  | p, [] => m (p % W64) = 0
  | p, c :: cs => c ≠ 0 ∧ m (p % W64) = c ∧ cstring_at m ((p + 1) % W64) cs

instance cstring_at_decidable (m : Mem) : (p : Nat) → (s : List Byte) →
    Decidable (cstring_at m p s)
  | p, [] => inferInstanceAs (Decidable (m (p % W64) = 0))
  | p, c :: cs =>
    have := cstring_at_decidable m ((p + 1) % W64) cs
    inferInstanceAs (Decidable (c ≠ 0 ∧ m (p % W64) = c ∧ cstring_at m ((p + 1) % W64) cs))

/-- The bytes that the scan may read while it examines relocation record `j`: the fields
`r_offset` and `r_info` of the record, the field `st_name` of the symbol it references, and
the bytes of that name that `strcmp` can reach (at most the length of the requested name
plus the terminator). -/
def entry_reads (hook : QwanPLT) (func_name : List Byte) (m : Mem) (j x : Nat) : Prop :=
  (∃ t, t < 16 ∧ x = (rela_addr hook j + t) % W64) ∨
  (∃ t, t < 4 ∧ x = (sym_addr hook (ELF_R_SYM (r_info hook m j)) + t) % W64) ∨
  (∃ t, t < func_name.length + 1 ∧ x = (name_ptr hook m j + t) % W64)

instance (hook : QwanPLT) (func_name : List Byte) (m : Mem) (j x : Nat) :
    Decidable (entry_reads hook func_name m j x) :=
  inferInstanceAs (Decidable (_ ∨ _ ∨ _))

/-- The dispatch slot of record `i` shares no byte with what the scan reads while it
examines the records `0, ..., i`. -/
def slot_apart (hook : QwanPLT) (func_name : List Byte) (m : Mem) (i : Nat) : Prop :=
  ∀ j, j < i + 1 → ∀ t, t < 8 →
    ¬ entry_reads hook func_name m j ((got_entry hook m i + t) % W64)

instance (hook : QwanPLT) (func_name : List Byte) (m : Mem) (i : Nat) :
    Decidable (slot_apart hook func_name m i) :=
  inferInstanceAs (Decidable (∀ j, j < i + 1 → ∀ t, t < 8 → _))

/-- The process state after `n` successive calls of `qwanplt_replace` with the same
arguments. -/
def replace_iter (pf : Platform) (hook : QwanPLT) (func_name : List Byte) (hook_func : Nat)
    (want_old : Bool) (p : Proc) : Nat → Proc
  | 0 => p
  | n + 1 =>
    (qwanplt_replace pf hook func_name hook_func want_old
      (replace_iter pf hook func_name hook_func want_old p n)).proc

/-- The facts about a process state that make a call patch the slot `slot` through
record `i`. -/
def patchable (hook : QwanPLT) (func_name : List Byte) (i slot : Nat) (m : Mem) : Prop :=
  first_match hook func_name m i ∧ got_entry hook m i = slot ∧ slot_apart hook func_name m i

/-- One record of the dynamic array (`Elf64_Dyn`): tag and value. -/
structure Dyn where
  d_tag : Nat
  d_un : Nat
  deriving DecidableEq, Repr

/-- The memory holds at address `d` the records `es`, none of them with the null tag,
followed by a record with the null tag. -/
def dyn_array_at (m : Mem) : Nat → List Dyn → Prop
  | d, [] => load64 m d = DT_NULL
  | d, e :: es =>
    e.d_tag ≠ DT_NULL ∧ load64 m d = e.d_tag ∧ load64 m ((d + 8) % W64) = e.d_un ∧
      dyn_array_at m ((d + sizeof_Dyn) % W64) es

instance dyn_array_at_decidable (m : Mem) : (d : Nat) → (es : List Dyn) →
    Decidable (dyn_array_at m d es)
  | d, [] => inferInstanceAs (Decidable (load64 m d = DT_NULL))
  | d, e :: es =>
    have := dyn_array_at_decidable m ((d + sizeof_Dyn) % W64) es
    inferInstanceAs (Decidable (e.d_tag ≠ DT_NULL ∧ load64 m d = e.d_tag ∧
      load64 m ((d + 8) % W64) = e.d_un ∧ dyn_array_at m ((d + sizeof_Dyn) % W64) es))

/-- The value carried by the last record of `es` with tag `tag`, if there is one. -/
def last_val : List Dyn → Nat → Option Nat
  | [], _ => none
  | e :: es, tag =>
    match last_val es tag with
    | some v => some v
    | none => if e.d_tag = tag then some e.d_un else none

/-- The handle after the `switch` has been applied to the records `es` in order. -/
def walk_records (hook : QwanPLT) (es : List Dyn) : QwanPLT :=
  es.foldl (fun h e => dyn_case h e.d_tag e.d_un) hook

/-- Relocation record `k` resolves to a symbol named `s`: the null-terminated name found
at `strtab + st_name` of symbol number `r_info >> 32` of the symbol table is `s`.  The
address is written out in loads and handle fields. -/
def resolves_to (hook : QwanPLT) (m : Mem) (k : Nat) (s : List Byte) : Prop :=
  cstring_at m
    ((hook.strtab +
      load32 m
        ((hook.symtab +
          24 * (load64 m (((hook.plt_rela + 24 * k) % W64 + 8) % W64) / 2 ^ 32)) % W64)) %
      W64) s

instance (hook : QwanPLT) (m : Mem) (k : Nat) (s : List Byte) :
    Decidable (resolves_to hook m k s) :=
  inferInstanceAs (Decidable (cstring_at m _ s))

/-- Record `i` is the first record of `[0, plt_rela_size)` that resolves to a symbol named
`s`. -/
def first_named (hook : QwanPLT) (m : Mem) (s : List Byte) (i : Nat) : Prop :=
  i < hook.plt_rela_size ∧ resolves_to hook m i s ∧ ∀ j, j < i → ¬ resolves_to hook m j s

instance (hook : QwanPLT) (m : Mem) (s : List Byte) (i : Nat) :
    Decidable (first_named hook m s i) :=
  inferInstanceAs (Decidable (_ ∧ _ ∧ _))

/-- The text that `what()` returns for an exception: the stored message read as a C
string, that is, cut at its first NUL byte. -/
def what_text (e : runtime_error) : List Byte := c_str e.what

deriving instance DecidableEq for Except

/-! ## Example images used to instantiate the theorems -/

/-- A small image: three relocation records at `0x1000` (symbols 2, 1, 1), symbol records
at `0x2000`, the names `f` (offset 1) and `g` (offset 3) in the string table at `0x3000`,
and a dispatch table at `0x4000`. -/
def demo_mem : Mem :=
  let m : Mem := fun _ => 0
  let m := store64 m 0x1000 0x10
  let m := store64 m 0x1008 (2 * 2 ^ 32 + 7)
  let m := store64 m 0x1018 0x18
  let m := store64 m 0x1020 (1 * 2 ^ 32 + 7)
  let m := store64 m 0x1030 0x20
  let m := store64 m 0x1038 (1 * 2 ^ 32 + 7)
  let m := storeLE m 4 0x2018 1
  let m := storeLE m 4 0x2030 3
  let m := store8 m 0x3001 102
  let m := store8 m 0x3003 103
  let m := store64 m 0x4010 0xAAAA
  let m := store64 m 0x4018 0xBBBB
  store64 m 0x4020 0xCCCC

/-- A handle describing `demo_mem`. -/
def demo_hook : QwanPLT :=
  { handle := 1, dynamic := 0x5000, symtab := 0x2000, strtab := 0x3000, plt_rela := 0x1000,
    plt_got := 0x4000, plt_rela_size := 3 }

/-- The process state holding `demo_mem`, every address readable and executable. -/
def demo_proc : Proc := { mem := demo_mem, prot := fun _ => 5 }

/-- A platform with 4096-byte pages that grants both protection changes. -/
def all_granted : Platform := { page_size := 4096, unprotect_ok := true, restore_ok := true }

/-- A platform that grants the first protection change and refuses the restore. -/
def restore_refused : Platform :=
  { page_size := 4096, unprotect_ok := true, restore_ok := false }

/-- The example image with the target offset of record 1 changed from `0x18` to `0x1C`,
which is not a multiple of the word size. -/
def odd_proc : Proc := { mem := store64 demo_mem 0x1018 0x1C, prot := fun _ => 5 }

/-- A handle over the example image whose dispatch table overlaps the string table: the
slot of record 1 (`plt_got + 0x18`) is the address `0x3001` of the name `f`. -/
def alias_hook : QwanPLT :=
  { handle := 1, dynamic := 0x5000, symtab := 0x2000, strtab := 0x3000, plt_rela := 0x1000,
    plt_got := 0x2FE9, plt_rela_size := 3 }

/-- A loader with two loaded modules, the main program first (load bias `0x1000`, dynamic
segment at virtual address `0x10`) and the library `B` second (load bias `0x2000`, dynamic
segment at `0x20`); `dlopen` answers the handle `7` for every request. -/
def two_modules : Loader :=
  { dlopen := fun _ => 7
    dlerror := []
    has_dl_iterate_phdr := true
    modules :=
      [ { dlpi_addr := 0x1000, dlpi_name := [],
          dlpi_phdr := [⟨1, 0⟩, ⟨PT_DYNAMIC, 0x10⟩] },
        { dlpi_addr := 0x2000, dlpi_name := [66],
          dlpi_phdr := [⟨1, 0⟩, ⟨PT_DYNAMIC, 0x20⟩] } ] }

/-- The dynamic array of the main program of `two_modules`; the symbol table tag occurs
twice. -/
def main_dyn : List Dyn :=
  [⟨DT_SYMTAB, 0xA000⟩, ⟨DT_STRTAB, 0xA200⟩, ⟨DT_PLTRELSZ, 50⟩, ⟨DT_JMPREL, 0xA300⟩,
   ⟨DT_SYMTAB, 0xA100⟩, ⟨DT_PLTGOT, 0xA400⟩]

/-- Stores the records `es` at address `d`. -/
def store_dyn (m : Mem) : Nat → List Dyn → Mem
  | _, [] => m
  | d, e :: es => store_dyn (store64 (store64 m d e.d_tag) (d + 8) e.d_un) (d + 16) es

/-- A memory holding `main_dyn` at `0x1010` and, after its terminator, another record; the
dynamic array of the library `B` stands at `0x2020`. -/
def two_modules_mem : Mem :=
  let m : Mem := fun _ => 0
  let m := store_dyn m 0x1010 main_dyn
  let m := store_dyn m 0x1080 [⟨DT_PLTGOT, 0xEEEE⟩]
  store_dyn m 0x2020
    [⟨DT_SYMTAB, 0xB100⟩, ⟨DT_STRTAB, 0xB200⟩, ⟨DT_JMPREL, 0xB300⟩, ⟨DT_PLTGOT, 0xB400⟩]

/-- A dynamic array with the four table tags and no size tag, the symbol table tag
carrying a null address. -/
def null_symtab_dyn : List Dyn :=
  [⟨DT_SYMTAB, 0⟩, ⟨DT_STRTAB, 0xA200⟩, ⟨DT_JMPREL, 0xA300⟩, ⟨DT_PLTGOT, 0xA400⟩]

/-- A dynamic array with the four table tags, all non-null, and no size tag. -/
def no_size_dyn : List Dyn :=
  [⟨DT_SYMTAB, 0xA100⟩, ⟨DT_STRTAB, 0xA200⟩, ⟨DT_JMPREL, 0xA300⟩, ⟨DT_PLTGOT, 0xA400⟩]

/-- The handle that `discover` produces on `two_modules`. -/
def discovered_hook : QwanPLT :=
  { handle := 7, dynamic := 0x1010, symtab := 0, strtab := 0, plt_rela := 0, plt_got := 0,
    plt_rela_size := 0 }

/-- The handle that `qwanplt_open` returns on `two_modules` and `two_modules_mem`. -/
def opened_hook : QwanPLT :=
  { handle := 7, dynamic := 0x1010, symtab := 0xA100, strtab := 0xA200, plt_rela := 0xA300,
    plt_got := 0xA400, plt_rela_size := 2 }

/-- A memory holding `null_symtab_dyn` at `0x1010`. -/
def null_symtab_mem : Mem := store_dyn (fun _ => 0) 0x1010 null_symtab_dyn

/-- A memory holding `no_size_dyn` at `0x1010`. -/
def no_size_mem : Mem := store_dyn (fun _ => 0) 0x1010 no_size_dyn

set_option maxRecDepth 100000

/-! ## Memory lemmas -/

theorem loadLE_lt (m : Mem) (n a : Nat) : loadLE m n a < 256 ^ n := by
  induction n generalizing a with
  | zero => simp [loadLE]
  | succ n ih =>
    have h1 := ih ((a + 1) % W64)
    have h2 := (m (a % W64)).isLt
    simp only [loadLE, pow_succ]
    omega

theorem load64_lt (m : Mem) (a : Nat) : load64 m a < W64 := by
  have := loadLE_lt m 8 a
  simpa [load64] using this

theorem storeLE_outside (m : Mem) (n a v x : Nat)
    (h : ∀ t, t < n → x ≠ (a + t) % W64) : storeLE m n a v x = m x := by
  induction n generalizing m a v with
  | zero => rfl
  | succ n ih =>
    simp only [storeLE]
    rw [ih]
    · have h0 := h 0 (by omega)
      simp only [Nat.add_zero] at h0
      simp [store8, h0]
    · intro t ht
      have := h (t + 1) (by omega)
      simp only [W64] at this ⊢
      omega

theorem loadLE_storeLE (m : Mem) (n a v : Nat) (hn : n ≤ 8) :
    loadLE (storeLE m n a v) n a = v % 256 ^ n := by
  induction n generalizing m a v with
  | zero => simp [loadLE, Nat.mod_one]
  | succ n ih =>
    simp only [loadLE, storeLE]
    rw [ih _ _ _ (by omega), storeLE_outside]
    · simp only [store8, if_true, lowByte, pow_succ]
      rw [Nat.mul_comm (256 ^ n) 256, Nat.mod_mul]
    · intro t ht
      simp only [W64]
      omega

theorem loadLE_congr (m m2 : Mem) (n a : Nat)
    (h : ∀ t, t < n → m2 ((a + t) % W64) = m ((a + t) % W64)) :
    loadLE m2 n a = loadLE m n a := by
  induction n generalizing a with
  | zero => rfl
  | succ n ih =>
    simp only [loadLE]
    have h0 := h 0 (by omega)
    simp only [Nat.add_zero] at h0
    rw [h0, ih]
    intro t ht
    have := h (t + 1) (by omega)
    have e : ((a + 1) % W64 + t) % W64 = (a + (t + 1)) % W64 := by
      simp only [W64]; omega
    rw [e]; exact this

theorem store64_outside (m : Mem) (a v x : Nat) (h : ¬ inWord a x) :
    store64 m a v x = m x := by
  apply storeLE_outside
  intro t ht hx
  exact h ⟨t, ht, hx⟩

theorem load64_store64 (m : Mem) (a v : Nat) : load64 (store64 m a v) a = v % W64 := by
  have := loadLE_storeLE m 8 a v (by omega)
  simpa [load64, store64] using this

/-! ## The scan of `qwanplt_replace` -/

theorem replace_loop_none (pf : Platform) (hook : QwanPLT) (func_name : List Byte)
    (hook_func : Nat) (want_old : Bool) (p : Proc) (todo i : Nat)
    (h : ∀ j, i ≤ j → j < i + todo → ¬ entry_matches hook func_name p.mem j) :
    replace_loop pf hook func_name hook_func want_old p todo i =
      { ret := .error (not_found_error func_name), old_func := none, hook := hook,
        proc := p } := by
  induction todo generalizing i with
  | zero => rfl
  | succ n ih =>
    have h0 : ¬ strcmp p.mem func_name (name_ptr hook p.mem i) = 0 :=
      h i (Nat.le_refl _) (by omega)
    rw [replace_loop, if_neg h0]
    exact ih (i + 1) (fun j h1 h2 => h j (by omega) (by omega))

theorem replace_loop_hit (pf : Platform) (hook : QwanPLT) (func_name : List Byte)
    (hook_func : Nat) (want_old : Bool) (p : Proc) (todo i k : Nat)
    (hik : i ≤ k) (hk : k < i + todo) (hm : entry_matches hook func_name p.mem k)
    (h : ∀ j, i ≤ j → j < k → ¬ entry_matches hook func_name p.mem j) :
    replace_loop pf hook func_name hook_func want_old p todo i =
      patch pf hook hook_func want_old p k := by
  induction todo generalizing i with
  | zero => omega
  | succ n ih =>
    rw [replace_loop]
    by_cases hi : i = k
    · subst hi
      have h0 : strcmp p.mem func_name (name_ptr hook p.mem i) = 0 := hm
      rw [if_pos h0]
    · have h0 : ¬ strcmp p.mem func_name (name_ptr hook p.mem i) = 0 :=
        h i (Nat.le_refl _) (by omega)
      rw [if_neg h0]
      exact ih (i + 1) (by omega) (by omega) (fun j h1 h2 => h j (by omega) h2)

theorem replace_of_first_match (pf : Platform) (hook : QwanPLT) (func_name : List Byte)
    (hook_func : Nat) (want_old : Bool) (p : Proc) (i : Nat)
    (h : first_match hook func_name p.mem i) :
    qwanplt_replace pf hook func_name hook_func want_old p =
      patch pf hook hook_func want_old p i :=
  replace_loop_hit pf hook func_name hook_func want_old p _ 0 i (Nat.zero_le _)
    (by have := h.1; omega) h.2.1 (fun j _ hj => h.2.2 j hj)

theorem replace_of_no_match (pf : Platform) (hook : QwanPLT) (func_name : List Byte)
    (hook_func : Nat) (want_old : Bool) (p : Proc)
    (h : ∀ k, k < hook.plt_rela_size → ¬ entry_matches hook func_name p.mem k) :
    qwanplt_replace pf hook func_name hook_func want_old p =
      { ret := .error (not_found_error func_name), old_func := none, hook := hook,
        proc := p } :=
  replace_loop_none pf hook func_name hook_func want_old p _ 0
    (fun j _ hj => h j (by omega))

theorem exists_first_match (hook : QwanPLT) (func_name : List Byte) (m : Mem)
    (h : ∃ k, k < hook.plt_rela_size ∧ entry_matches hook func_name m k) :
    ∃ i, first_match hook func_name m i := by
  classical
  refine ⟨Nat.find h, (Nat.find_spec h).1, (Nat.find_spec h).2, ?_⟩
  intro j hj hmj
  exact Nat.find_min h hj ⟨by have := (Nat.find_spec h).1; omega, hmj⟩

theorem patch_granted (pf : Platform) (hook : QwanPLT) (hook_func : Nat) (want_old : Bool)
    (p : Proc) (i : Nat) (h1 : pf.unprotect_ok = true) (h2 : pf.restore_ok = true) :
    patch pf hook hook_func want_old p i =
      { ret := .ok 0,
        old_func := if want_old then some (load64 p.mem (got_entry hook p.mem i)) else none,
        hook := hook,
        proc :=
          { mem := store64 p.mem (got_entry hook p.mem i) hook_func,
            prot := fun a =>
              if page_start pf.page_size (got_entry hook p.mem i) ≤ a ∧
                  a < page_start pf.page_size (got_entry hook p.mem i) + pf.page_size
              then PROT_READ
              else if page_start pf.page_size (got_entry hook p.mem i) ≤ a ∧
                  a < page_start pf.page_size (got_entry hook p.mem i) + pf.page_size
              then PROT_READ ||| PROT_WRITE else p.prot a } } := by
  simp [patch, mprotect, h1, h2]

theorem got_entry_words_disjoint (hook : QwanPLT) (m : Mem) (i j t : Nat) (ht : t < 8)
    (hne : got_entry hook m j ≠ got_entry hook m i) :
    ¬ inWord (got_entry hook m i) ((got_entry hook m j + t) % W64) := by
  rintro ⟨u, hu, e⟩
  simp only [got_entry, sizeof_Addr, W64] at hne e
  omega

/-! ## Name comparison and page arithmetic -/

theorem strcmp_eq_zero_iff (m : Mem) (s : List Byte) (p : Nat) :
    strcmp m s p = 0 ↔ cstring_at m p (c_str s) := by
  induction s generalizing p with
  | nil =>
    simp only [strcmp, c_str, List.takeWhile_nil, cstring_at]
    constructor
    · intro h; exact Fin.ext (by simp; omega)
    · intro h; rw [h]; simp
  | cons c cs ih =>
    by_cases hc : c = 0
    · subst hc
      simp only [strcmp, c_str, cstring_at]
      simp only [Fin.val_zero, if_true, ne_eq, not_true_eq_false, decide_False,
        List.takeWhile_cons_of_neg, Bool.false_eq_true, not_false_eq_true, cstring_at]
      constructor
      · intro h; exact Fin.ext (by simp; omega)
      · intro h; rw [h]; simp
    · have hv : ¬ c.val = 0 := fun h => hc (Fin.ext h)
      have ht : c_str (c :: cs) = c :: c_str cs := by
        simp [c_str, List.takeWhile, hc]
      rw [ht]
      simp only [strcmp, if_neg hv, cstring_at]
      by_cases hm : c = m (p % W64)
      · rw [if_pos hm, ih]
        exact ⟨fun h => ⟨hc, hm.symm, h⟩, fun h => h.2.2⟩
      · rw [if_neg hm]
        constructor
        · intro h
          exact absurd (Fin.ext (by omega)) hm
        · intro h; exact absurd h.2.1.symm hm

theorem c_str_of_no_nul (s : List Byte) (h : ∀ c, c ∈ s → c ≠ 0) : c_str s = s := by
  induction s with
  | nil => rfl
  | cons c cs ih =>
    have hc : c ≠ 0 := h c (List.mem_cons_self _ _)
    have : c_str (c :: cs) = c :: c_str cs := by simp [c_str, List.takeWhile, hc]
    rw [this, ih (fun d hd => h d (List.mem_cons_of_mem _ hd))]

theorem and_two_pow_mask (k addr : Nat) (hk : k < 64) (ha : addr < 2 ^ 64) :
    addr &&& (2 ^ 64 - 2 ^ k) = addr - addr % 2 ^ k := by
  have e1 : 2 ^ 64 - 2 ^ k = 2 ^ k * (2 ^ (64 - k) - 1) := by
    have : 2 ^ 64 = 2 ^ k * 2 ^ (64 - k) := by
      rw [← pow_add]; congr 1; omega
    rw [Nat.mul_sub, Nat.mul_one, ← this]
  have e2 : addr - addr % 2 ^ k = 2 ^ k * (addr / 2 ^ k) := by
    have := Nat.div_add_mod addr (2 ^ k)
    omega
  rw [e1, e2]
  apply Nat.eq_of_testBit_eq
  intro i
  rw [Nat.testBit_and, Nat.testBit_mul_pow_two, Nat.testBit_mul_pow_two,
    Nat.testBit_two_pow_sub_one, ← Nat.shiftRight_eq_div_pow, Nat.testBit_shiftRight]
  by_cases hik : k ≤ i
  · have e3 : k + (i - k) = i := by omega
    simp only [ge_iff_le, hik, decide_True, Bool.true_and, e3]
    by_cases h64 : i < 64
    · have : i - k < 64 - k := by omega
      simp [this]
    · have hlt : addr < 2 ^ i :=
        lt_of_lt_of_le ha (Nat.pow_le_pow_right (by decide) (by omega))
      rw [Nat.testBit_eq_false_of_lt hlt]
      simp
  · simp [hik]

theorem page_start_two_pow (k addr : Nat) (hk : k < 64) (ha : addr < W64) :
    page_start (2 ^ k) addr = addr - addr % 2 ^ k := by
  have hpos : 0 < 2 ^ k := Nat.two_pow_pos k
  have hlt : 2 ^ k < 2 ^ 64 := Nat.pow_lt_pow_right (by decide) hk
  have hm : page_mask (2 ^ k) = 2 ^ 64 - 2 ^ k := by
    simp only [page_mask, W64]
    norm_num at hlt ⊢
    omega
  rw [page_start, hm]
  exact and_two_pow_mask k addr hk (by simpa [W64] using ha)

theorem got_entry_lt (hook : QwanPLT) (m : Mem) (i : Nat) : got_entry hook m i < W64 :=
  Nat.mod_lt _ (by decide)

theorem replace_ok_first_match (pf : Platform) (hook : QwanPLT) (func_name : List Byte)
    (hook_func : Nat) (want_old : Bool) (p : Proc)
    (h : (qwanplt_replace pf hook func_name hook_func want_old p).ret = .ok 0) :
    ∃ i, first_match hook func_name p.mem i := by
  by_cases hex : ∃ k, k < hook.plt_rela_size ∧ entry_matches hook func_name p.mem k
  · exact exists_first_match hook func_name p.mem hex
  · rw [replace_of_no_match pf hook func_name hook_func want_old p
      (fun k hk hm => hex ⟨k, hk, hm⟩)] at h
    exact absurd h (by simp)

theorem patch_unprotect_refused (pf : Platform) (hook : QwanPLT) (hook_func : Nat)
    (want_old : Bool) (p : Proc) (i : Nat) (h1 : pf.unprotect_ok = false) :
    patch pf hook hook_func want_old p i =
      { ret := .error ⟨lit "mprotect failed"⟩,
        old_func := if want_old then some (load64 p.mem (got_entry hook p.mem i)) else none,
        hook := hook, proc := p } := by
  simp [patch, mprotect, h1]

theorem patch_restore_refused (pf : Platform) (hook : QwanPLT) (hook_func : Nat)
    (want_old : Bool) (p : Proc) (i : Nat) (h1 : pf.unprotect_ok = true)
    (h2 : pf.restore_ok = false) :
    (patch pf hook hook_func want_old p i).ret = .error ⟨lit "mprotect restore failed"⟩ ∧
    (patch pf hook hook_func want_old p i).proc.mem =
      store64 p.mem (got_entry hook p.mem i) hook_func ∧
    (patch pf hook hook_func want_old p i).proc.prot =
      (fun a =>
        if page_start pf.page_size (got_entry hook p.mem i) ≤ a ∧
            a < page_start pf.page_size (got_entry hook p.mem i) + pf.page_size
        then PROT_READ ||| PROT_WRITE else p.prot a) := by
  simp [patch, mprotect, h1, h2]

/-! ## Two calls in a row -/

theorem strcmp_congr (m m2 : Mem) (s : List Byte) (p : Nat)
    (h : ∀ t, t < s.length + 1 → m2 ((p + t) % W64) = m ((p + t) % W64)) :
    strcmp m2 s p = strcmp m s p := by
  induction s generalizing p with
  | nil =>
    have h0 := h 0 (by simp)
    simp only [Nat.add_zero] at h0
    simp only [strcmp, h0]
  | cons c cs ih =>
    have h0 := h 0 (by simp)
    simp only [Nat.add_zero] at h0
    have hrec : strcmp m2 cs ((p + 1) % W64) = strcmp m cs ((p + 1) % W64) := by
      apply ih
      intro t ht
      have := h (t + 1) (by simp only [List.length_cons]; omega)
      have e : ((p + 1) % W64 + t) % W64 = (p + (t + 1)) % W64 := by
        simp only [W64]; omega
      rw [e]; exact this
    simp only [strcmp, h0, hrec]

theorem entry_congr (hook : QwanPLT) (func_name : List Byte) (m m2 : Mem) (j : Nat)
    (h : ∀ x, entry_reads hook func_name m j x → m2 x = m x) :
    r_offset hook m2 j = r_offset hook m j ∧ r_info hook m2 j = r_info hook m j ∧
      name_ptr hook m2 j = name_ptr hook m j ∧
      strcmp m2 func_name (name_ptr hook m2 j) = strcmp m func_name (name_ptr hook m j) := by
  have hoff : r_offset hook m2 j = r_offset hook m j := by
    apply loadLE_congr
    intro t ht
    exact h _ (Or.inl ⟨t, by omega, rfl⟩)
  have hinfo : r_info hook m2 j = r_info hook m j := by
    apply loadLE_congr
    intro t ht
    refine h _ (Or.inl ⟨8 + t, by omega, ?_⟩)
    simp only [W64]; omega
  have hptr : name_ptr hook m2 j = name_ptr hook m j := by
    simp only [name_ptr, hinfo]
    congr 2
    apply loadLE_congr
    intro t ht
    exact h _ (Or.inr (Or.inl ⟨t, ht, rfl⟩))
  refine ⟨hoff, hinfo, hptr, ?_⟩
  rw [hptr]
  apply strcmp_congr
  intro t ht
  exact h _ (Or.inr (Or.inr ⟨t, ht, rfl⟩))

theorem entry_reads_congr (hook : QwanPLT) (func_name : List Byte) (m m2 : Mem) (j x : Nat)
    (h : ∀ y, entry_reads hook func_name m j y → m2 y = m y) :
    entry_reads hook func_name m2 j x ↔ entry_reads hook func_name m j x := by
  obtain ⟨_, hinfo, hptr, _⟩ := entry_congr hook func_name m m2 j h
  simp only [entry_reads, hinfo, hptr]

theorem got_entry_congr (hook : QwanPLT) (m m2 : Mem) (i : Nat)
    (h : r_offset hook m2 i = r_offset hook m i) : got_entry hook m2 i = got_entry hook m i := by
  simp only [got_entry, h]

theorem patchable_store (hook : QwanPLT) (func_name : List Byte) (i slot v : Nat) (m : Mem)
    (h : patchable hook func_name i slot m) :
    patchable hook func_name i slot (store64 m slot v) := by
  obtain ⟨hf, hs, ha⟩ := h
  have agree : ∀ j, j < i + 1 → ∀ x, entry_reads hook func_name m j x →
      store64 m slot v x = m x := by
    intro j hj x hx
    apply store64_outside
    rintro ⟨t, ht, rfl⟩
    rw [← hs] at hx
    exact ha j hj t ht hx
  have hc := fun j (hj : j < i + 1) => entry_congr hook func_name m _ j (agree j hj)
  have hg : got_entry hook (store64 m slot v) i = got_entry hook m i :=
    got_entry_congr hook m _ i (hc i (by omega)).1
  refine ⟨⟨hf.1, ?_, ?_⟩, hg.trans hs, ?_⟩
  · have := (hc i (by omega)).2.2.2
    simp only [entry_matches, this]
    exact hf.2.1
  · intro j hj
    have := (hc j (by omega)).2.2.2
    simp only [entry_matches, this]
    exact hf.2.2 j hj
  · intro j hj t ht hx
    rw [hg] at hx
    exact ha j hj t ht
      ((entry_reads_congr hook func_name m _ j _ (agree j hj)).mp hx)

theorem replace_patchable (pf : Platform) (hook : QwanPLT) (func_name : List Byte)
    (hook_func : Nat) (want_old : Bool) (p : Proc) (i slot : Nat)
    (h : patchable hook func_name i slot p.mem)
    (h1 : pf.unprotect_ok = true) (h2 : pf.restore_ok = true) :
    (qwanplt_replace pf hook func_name hook_func want_old p).ret = .ok 0 ∧
    (qwanplt_replace pf hook func_name hook_func want_old p).old_func =
      (if want_old then some (load64 p.mem slot) else none) ∧
    (qwanplt_replace pf hook func_name hook_func want_old p).hook = hook ∧
    (qwanplt_replace pf hook func_name hook_func want_old p).proc.mem =
      store64 p.mem slot hook_func := by
  rw [replace_of_first_match pf hook func_name hook_func want_old p i h.1,
    patch_granted pf hook hook_func want_old p i h1 h2, h.2.1]
  exact ⟨rfl, rfl, rfl, rfl⟩

theorem replace_iter_patchable (pf : Platform) (hook : QwanPLT) (func_name : List Byte)
    (hook_func : Nat) (want_old : Bool) (p : Proc) (i slot : Nat)
    (h : patchable hook func_name i slot p.mem)
    (h1 : pf.unprotect_ok = true) (h2 : pf.restore_ok = true) (n : Nat) :
    patchable hook func_name i slot
      (replace_iter pf hook func_name hook_func want_old p n).mem := by
  induction n with
  | zero => exact h
  | succ n ih =>
    rw [replace_iter, (replace_patchable pf hook func_name hook_func want_old _ i slot ih
      h1 h2).2.2.2]
    exact patchable_store hook func_name i slot hook_func _ ih

/-! ## The metadata walk of `qwanplt_open` -/

theorem dyn_walk_eq (m : Mem) (es : List Dyn) (fuel d : Nat) (hook : QwanPLT)
    (harr : dyn_array_at m d es) (hfuel : es.length < fuel) :
    dyn_walk m fuel d hook = some (walk_records hook es) := by
  induction es generalizing fuel d hook with
  | nil =>
    cases fuel with
    | zero => simp at hfuel
    | succ n =>
      have h0 : load64 m d = DT_NULL := harr
      simp [dyn_walk, h0, walk_records]
  | cons e es ih =>
    cases fuel with
    | zero => simp at hfuel
    | succ n =>
      obtain ⟨hne, ht, hv, hrest⟩ := harr
      have hne2 : ¬ load64 m d = DT_NULL := by rw [ht]; exact hne
      rw [dyn_walk]
      simp only [hne2, if_false]
      rw [ih n _ _ hrest (by simpa using hfuel), ht, hv]
      rfl

theorem walk_records_cons (hook : QwanPLT) (e : Dyn) (es : List Dyn) :
    walk_records hook (e :: es) = walk_records (dyn_case hook e.d_tag e.d_un) es := rfl

theorem walk_records_fields (es : List Dyn) (hook : QwanPLT) :
    (walk_records hook es).handle = hook.handle ∧
    (walk_records hook es).dynamic = hook.dynamic ∧
    (walk_records hook es).symtab = (last_val es DT_SYMTAB).getD hook.symtab ∧
    (walk_records hook es).strtab = (last_val es DT_STRTAB).getD hook.strtab ∧
    (walk_records hook es).plt_rela = (last_val es DT_JMPREL).getD hook.plt_rela ∧
    (walk_records hook es).plt_got = (last_val es DT_PLTGOT).getD hook.plt_got ∧
    (walk_records hook es).plt_rela_size =
      ((last_val es DT_PLTRELSZ).map (fun v => v / 24)).getD hook.plt_rela_size := by
  induction es generalizing hook with
  | nil => simp [walk_records, last_val]
  | cons e es ih =>
    rw [walk_records_cons]
    obtain ⟨i1, i2, i3, i4, i5, i6, i7⟩ := ih (dyn_case hook e.d_tag e.d_un)
    rw [i1, i2, i3, i4, i5, i6, i7]
    simp only [last_val]
    refine ⟨?_, ?_, ?_, ?_, ?_, ?_, ?_⟩
    · simp only [dyn_case]; split_ifs <;> rfl
    · simp only [dyn_case]; split_ifs <;> rfl
    · cases last_val es DT_SYMTAB with
      | some v => rfl
      | none =>
        simp only [dyn_case, DT_SYMTAB, DT_STRTAB, DT_JMPREL, DT_PLTRELSZ, DT_PLTGOT]
        split_ifs <;> simp_all
    · cases last_val es DT_STRTAB with
      | some v => rfl
      | none =>
        simp only [dyn_case, DT_SYMTAB, DT_STRTAB, DT_JMPREL, DT_PLTRELSZ, DT_PLTGOT]
        split_ifs <;> simp_all
    · cases last_val es DT_JMPREL with
      | some v => rfl
      | none =>
        simp only [dyn_case, DT_SYMTAB, DT_STRTAB, DT_JMPREL, DT_PLTRELSZ, DT_PLTGOT]
        split_ifs <;> simp_all
    · cases last_val es DT_PLTGOT with
      | some v => rfl
      | none =>
        simp only [dyn_case, DT_SYMTAB, DT_STRTAB, DT_JMPREL, DT_PLTRELSZ, DT_PLTGOT]
        split_ifs <;> simp_all
    · cases last_val es DT_PLTRELSZ with
      | some v => rfl
      | none =>
        simp only [dyn_case, DT_SYMTAB, DT_STRTAB, DT_JMPREL, DT_PLTRELSZ, DT_PLTGOT,
          sizeof_Rela]
        split_ifs <;> simp_all

theorem last_val_eq_none (es : List Dyn) (tag : Nat) (h : ∀ e, e ∈ es → e.d_tag ≠ tag) :
    last_val es tag = none := by
  induction es with
  | nil => rfl
  | cons e es ih =>
    simp only [last_val]
    rw [ih (fun x hx => h x (List.mem_cons_of_mem _ hx))]
    simp [h e (List.mem_cons_self _ _)]

theorem callback_loop_fields (addr : Nat) (hook : QwanPLT) (phs : List Phdr) :
    (callback_loop addr hook phs).2.handle = hook.handle ∧
    (callback_loop addr hook phs).2.symtab = hook.symtab ∧
    (callback_loop addr hook phs).2.strtab = hook.strtab ∧
    (callback_loop addr hook phs).2.plt_rela = hook.plt_rela ∧
    (callback_loop addr hook phs).2.plt_got = hook.plt_got ∧
    (callback_loop addr hook phs).2.plt_rela_size = hook.plt_rela_size := by
  induction phs with
  | nil => simp [callback_loop]
  | cons ph rest ih =>
    simp only [callback_loop]
    split_ifs
    · simp
    · exact ih

theorem dl_iterate_phdr_fields (mods : List dl_phdr_info) (hook : QwanPLT) :
    (dl_iterate_phdr callback mods hook).handle = hook.handle ∧
    (dl_iterate_phdr callback mods hook).symtab = hook.symtab ∧
    (dl_iterate_phdr callback mods hook).strtab = hook.strtab ∧
    (dl_iterate_phdr callback mods hook).plt_rela = hook.plt_rela ∧
    (dl_iterate_phdr callback mods hook).plt_got = hook.plt_got ∧
    (dl_iterate_phdr callback mods hook).plt_rela_size = hook.plt_rela_size := by
  induction mods generalizing hook with
  | nil => simp [dl_iterate_phdr]
  | cons info rest ih =>
    have hc := callback_loop_fields info.dlpi_addr hook info.dlpi_phdr
    simp only [dl_iterate_phdr]
    split_ifs
    · exact hc
    · obtain ⟨a1, a2, a3, a4, a5, a6⟩ := ih (callback info hook).2
      obtain ⟨b1, b2, b3, b4, b5, b6⟩ := hc
      simp only [callback] at a1 a2 a3 a4 a5 a6 ⊢
      exact ⟨a1.trans b1, a2.trans b2, a3.trans b3, a4.trans b4, a5.trans b5, a6.trans b6⟩

theorem discover_ok_fields (ld : Loader) (library_name : List Byte) (hook : QwanPLT)
    (h : discover ld library_name = .ok hook) :
    hook.dynamic ≠ 0 ∧ hook.symtab = 0 ∧ hook.strtab = 0 ∧ hook.plt_rela = 0 ∧
      hook.plt_got = 0 ∧ hook.plt_rela_size = 0 := by
  unfold discover at h
  generalize ld.dlopen (if library_name.isEmpty then none else some library_name) = hnd at h
  simp only at h
  split_ifs at h with h1 h2 h3
  injection h with h
  subst h
  obtain ⟨_, a2, a3, a4, a5, a6⟩ := dl_iterate_phdr_fields ld.modules
    { handle := hnd, dynamic := 0, symtab := 0, strtab := 0, plt_rela := 0, plt_got := 0,
      plt_rela_size := 0 }
  exact ⟨h3, a2, a3, a4, a5, a6⟩

theorem open_eq_of_array (ld : Loader) (library_name : List Byte) (m : Mem) (fuel : Nat)
    (hook0 : QwanPLT) (es : List Dyn) (hd : discover ld library_name = .ok hook0)
    (harr : dyn_array_at m hook0.dynamic es) (hfuel : es.length < fuel) :
    qwanplt_open ld m fuel library_name =
      if (walk_records hook0 es).symtab = 0 ∨ (walk_records hook0 es).strtab = 0 ∨
          (walk_records hook0 es).plt_rela = 0 ∨ (walk_records hook0 es).plt_got = 0 then
        some (.error ⟨lit "Failed to find required ELF sections"⟩)
      else some (.ok (walk_records hook0 es)) := by
  simp only [qwanplt_open, hd, dyn_walk_eq m es fuel _ hook0 harr hfuel]

theorem open_ok_of_array (ld : Loader) (library_name : List Byte) (m : Mem) (fuel : Nat)
    (hook0 : QwanPLT) (es : List Dyn) (hd : discover ld library_name = .ok hook0)
    (harr : dyn_array_at m hook0.dynamic es) (hfuel : es.length < fuel) (h : QwanPLT)
    (hh : qwanplt_open ld m fuel library_name = some (.ok h)) :
    walk_records hook0 es = h ∧ h.symtab ≠ 0 ∧ h.strtab ≠ 0 ∧ h.plt_rela ≠ 0 ∧
      h.plt_got ≠ 0 := by
  rw [open_eq_of_array ld library_name m fuel hook0 es hd harr hfuel] at hh
  by_cases hc : (walk_records hook0 es).symtab = 0 ∨ (walk_records hook0 es).strtab = 0 ∨
      (walk_records hook0 es).plt_rela = 0 ∨ (walk_records hook0 es).plt_got = 0
  · rw [if_pos hc] at hh
    injection hh with hh
    exact absurd hh (by simp)
  · rw [if_neg hc] at hh
    have hw : walk_records hook0 es = h := by
      injection hh with hh; injection hh
    rw [hw] at hc
    exact ⟨hw, fun e => hc (Or.inl e), fun e => hc (Or.inr (Or.inl e)),
      fun e => hc (Or.inr (Or.inr (Or.inl e))), fun e => hc (Or.inr (Or.inr (Or.inr e)))⟩

/-! ## Names of the records and the text of the diagnostic -/

theorem cstring_at_no_nul (m : Mem) (s : List Byte) (p : Nat) (h : cstring_at m p s) :
    ∀ c, c ∈ s → c ≠ 0 := by
  induction s generalizing p with
  | nil => intro c hc; cases hc
  | cons a as ih =>
    obtain ⟨ha, _, hrest⟩ := h
    intro c hc
    rcases List.mem_cons.mp hc with e | e
    · rw [e]; exact ha
    · exact ih _ hrest c e

theorem entry_matches_iff_resolves (hook : QwanPLT) (func_name : List Byte) (m : Mem)
    (k : Nat) :
    entry_matches hook func_name m k ↔ resolves_to hook m k (c_str func_name) :=
  strcmp_eq_zero_iff m func_name (name_ptr hook m k)

theorem first_match_of_first_named (hook : QwanPLT) (func_name : List Byte) (m : Mem)
    (i : Nat) (h : first_named hook m func_name i) : first_match hook func_name m i := by
  have hc : c_str func_name = func_name :=
    c_str_of_no_nul func_name (cstring_at_no_nul m func_name _ h.2.1)
  refine ⟨h.1, ?_, ?_⟩
  · rw [entry_matches_iff_resolves, hc]; exact h.2.1
  · intro j hj hm
    rw [entry_matches_iff_resolves, hc] at hm
    exact h.2.2 j hj hm

theorem exists_first_named (hook : QwanPLT) (m : Mem) (s : List Byte)
    (h : ∃ k, k < hook.plt_rela_size ∧ resolves_to hook m k s) :
    ∃ i, first_named hook m s i := by
  classical
  refine ⟨Nat.find h, (Nat.find_spec h).1, (Nat.find_spec h).2, ?_⟩
  intro j hj hmj
  exact Nat.find_min h hj ⟨by have := (Nat.find_spec h).1; omega, hmj⟩

theorem c_str_append_of_no_nul (a b : List Byte) (h : ∀ c, c ∈ a → c ≠ 0) :
    c_str (a ++ b) = a ++ c_str b := by
  induction a with
  | nil => rfl
  | cons x xs ih =>
    have hx : x ≠ 0 := h x (List.mem_cons_self _ _)
    have e : c_str (x :: (xs ++ b)) = x :: c_str (xs ++ b) := by
      simp [c_str, List.takeWhile, hx]
    rw [List.cons_append, e, ih (fun c hc => h c (List.mem_cons_of_mem _ hc))]
    rfl

theorem c_str_append_of_nul (a b : List Byte) (h : ¬ ∀ c, c ∈ a → c ≠ 0) :
    c_str (a ++ b) = c_str a := by
  induction a with
  | nil => exact absurd (fun c hc => by cases hc) h
  | cons x xs ih =>
    by_cases hx : x = 0
    · subst hx
      simp [c_str, List.takeWhile]
    · have e1 : c_str (x :: (xs ++ b)) = x :: c_str (xs ++ b) := by
        simp [c_str, List.takeWhile, hx]
      have e2 : c_str (x :: xs) = x :: c_str xs := by
        simp [c_str, List.takeWhile, hx]
      have hrest : ¬ ∀ c, c ∈ xs → c ≠ 0 := by
        intro hall
        apply h
        intro c hc
        rcases List.mem_cons.mp hc with e | e
        · rw [e]; exact hx
        · exact hall c e
      rw [List.cons_append, e1, e2, ih hrest]

theorem what_text_not_found (func_name : List Byte) :
    what_text ⟨lit "Function " ++ func_name ++ lit " not found in PLT"⟩ =
      if ∀ c, c ∈ func_name → c ≠ 0 then
        lit "Function " ++ func_name ++ lit " not found in PLT"
      else lit "Function " ++ c_str func_name := by
  have ha : ∀ c, c ∈ lit "Function " → c ≠ 0 := by decide
  have hb : ∀ c, c ∈ lit " not found in PLT" → c ≠ 0 := by decide
  simp only [what_text]
  rw [List.append_assoc, c_str_append_of_no_nul _ _ ha]
  by_cases hn : ∀ c, c ∈ func_name → c ≠ 0
  · rw [if_pos hn, c_str_append_of_no_nul _ _ hn, c_str_of_no_nul _ hb]
  · rw [if_neg hn, c_str_append_of_nul _ _ hn]

/-! ## Claims about `qwanplt_replace` -/

/-- Claim C1, as stated, fails: in `odd_proc` the first record named `f` has the target
offset `0x1C`, so its dispatch slot (`plt_got` plus the target offset) is the word at
`0x401C`.  The call returns `0`, but the word reported through `old_func` is not the one
held at `0x401C`, the word at `0x401C` does not hold the replacement afterwards, and the
byte at `0x4018`, which lies outside that slot, has changed. -/
theorem C1_unaligned_offset_patches_neighbouring_word :
    first_named demo_hook odd_proc.mem [102] 1 ∧
    (demo_hook.plt_got + load64 odd_proc.mem ((demo_hook.plt_rela + 24 * 1) % W64)) % W64 =
      0x401C ∧
    (qwanplt_replace all_granted demo_hook [102] 0x1234 true odd_proc).ret = .ok 0 ∧
    (qwanplt_replace all_granted demo_hook [102] 0x1234 true odd_proc).old_func ≠
      some (load64 odd_proc.mem 0x401C) ∧
    load64 (qwanplt_replace all_granted demo_hook [102] 0x1234 true odd_proc).proc.mem
      0x401C ≠ 0x1234 % W64 ∧
    ¬ inWord 0x401C 0x4018 ∧
    (qwanplt_replace all_granted demo_hook [102] 0x1234 true odd_proc).proc.mem 0x4018 ≠
      odd_proc.mem 0x4018 := by
  decide

/-- Claim C1, amended. When some relocation record of `[0, plt_rela_size)` resolves to a
symbol named `func_name` and both protection changes are granted, there is a first such
record `i`, and with `r_offset` the target offset of that record and
`slot = plt_got + 8 * (r_offset / 8)` modulo `2^64`: `qwanplt_replace` returns `0`; the word
reported through `old_func` (when requested) is the word held at `slot` before the call;
after the call the word at `slot` is the replacement address; every byte of memory outside
the 8 bytes of `slot` is unchanged, so the word `plt_got + 8 * (r_offset / 8)` of every
record that lies at another address (later records with the same name included) is the
same as before; the handle is unchanged; and `slot` is `plt_got + r_offset` modulo `2^64`
exactly when `r_offset` is a multiple of 8. -/
theorem C1_replace_patches_first_slot_only (pf : Platform) (hook : QwanPLT)
    (func_name : List Byte) (hook_func : Nat) (want_old : Bool) (p : Proc)
    (hex : ∃ k, k < hook.plt_rela_size ∧ resolves_to hook p.mem k func_name)
    (h1 : pf.unprotect_ok = true) (h2 : pf.restore_ok = true) :
    (∃ i, first_named hook p.mem func_name i) ∧
    ∀ i, first_named hook p.mem func_name i →
      (qwanplt_replace pf hook func_name hook_func want_old p).ret = .ok 0 ∧
      (qwanplt_replace pf hook func_name hook_func want_old p).old_func =
        (if want_old then
          some (load64 p.mem
            ((hook.plt_got + 8 * (load64 p.mem ((hook.plt_rela + 24 * i) % W64) / 8)) % W64))
         else none) ∧
      load64 (qwanplt_replace pf hook func_name hook_func want_old p).proc.mem
        ((hook.plt_got + 8 * (load64 p.mem ((hook.plt_rela + 24 * i) % W64) / 8)) % W64) =
          hook_func % W64 ∧
      (∀ x,
        ¬ inWord
          ((hook.plt_got + 8 * (load64 p.mem ((hook.plt_rela + 24 * i) % W64) / 8)) % W64) x →
        (qwanplt_replace pf hook func_name hook_func want_old p).proc.mem x = p.mem x) ∧
      (∀ j,
        (hook.plt_got + 8 * (load64 p.mem ((hook.plt_rela + 24 * j) % W64) / 8)) % W64 ≠
          (hook.plt_got + 8 * (load64 p.mem ((hook.plt_rela + 24 * i) % W64) / 8)) % W64 →
        load64 (qwanplt_replace pf hook func_name hook_func want_old p).proc.mem
            ((hook.plt_got + 8 * (load64 p.mem ((hook.plt_rela + 24 * j) % W64) / 8)) % W64) =
          load64 p.mem
            ((hook.plt_got + 8 * (load64 p.mem ((hook.plt_rela + 24 * j) % W64) / 8)) % W64)) ∧
      (qwanplt_replace pf hook func_name hook_func want_old p).hook = hook ∧
      ((hook.plt_got + 8 * (load64 p.mem ((hook.plt_rela + 24 * i) % W64) / 8)) % W64 =
          (hook.plt_got + load64 p.mem ((hook.plt_rela + 24 * i) % W64)) % W64 ↔
        load64 p.mem ((hook.plt_rela + 24 * i) % W64) % 8 = 0) := by
  refine ⟨exists_first_named hook p.mem func_name hex, ?_⟩
  intro i hi
  have hm := first_match_of_first_named hook func_name p.mem i hi
  rw [replace_of_first_match pf hook func_name hook_func want_old p i hm,
    patch_granted pf hook hook_func want_old p i h1 h2]
  refine ⟨rfl, rfl, load64_store64 _ _ _, fun x hx => store64_outside _ _ _ _ hx, ?_, rfl,
    ?_⟩
  · intro j hj
    apply loadLE_congr
    intro t ht
    exact store64_outside _ _ _ _ (got_entry_words_disjoint hook p.mem i j t ht hj)
  · have hlt := load64_lt p.mem ((hook.plt_rela + 24 * i) % W64)
    simp only [W64] at hlt ⊢
    omega

/-- Claim C1, instance: on the example image the name `f` is first carried by record 1,
whose target offset is `0x18`; the call returns `0`, reports the old word `0xBBBB` of the
slot `0x4018`, leaves `0x1234` there, and the slots `0x4010` of record 0 and `0x4020` of
record 2 (which also carries the name `f`) hold `0xAAAA` and `0xCCCC` as before. -/
theorem C1_replace_patches_first_slot_only_witness :
    (∃ k, k < demo_hook.plt_rela_size ∧ resolves_to demo_hook demo_proc.mem k [102]) ∧
    first_named demo_hook demo_proc.mem [102] 1 ∧
    resolves_to demo_hook demo_proc.mem 2 [102] ∧
    (qwanplt_replace all_granted demo_hook [102] 0x1234 true demo_proc).ret = .ok 0 ∧
    (qwanplt_replace all_granted demo_hook [102] 0x1234 true demo_proc).old_func =
      some 0xBBBB ∧
    load64 (qwanplt_replace all_granted demo_hook [102] 0x1234 true demo_proc).proc.mem
      0x4018 = 0x1234 ∧
    load64 (qwanplt_replace all_granted demo_hook [102] 0x1234 true demo_proc).proc.mem
      0x4020 = 0xCCCC ∧
    load64 (qwanplt_replace all_granted demo_hook [102] 0x1234 true demo_proc).proc.mem
      0x4010 = 0xAAAA ∧
    (qwanplt_replace all_granted demo_hook [102] 0x1234 true demo_proc).proc.mem 0x3001 =
      102 ∧
    (qwanplt_replace all_granted demo_hook [102] 0x1234 true demo_proc).hook = demo_hook := by
  have h := (C1_replace_patches_first_slot_only all_granted demo_hook [102] 0x1234 true
    demo_proc (by decide) rfl rfl).2 1 (by decide)
  have e0 : (demo_hook.plt_got +
      8 * (load64 demo_proc.mem ((demo_hook.plt_rela + 24 * 0) % W64) / 8)) % W64 = 0x4010 := by
    decide
  have e1 : (demo_hook.plt_got +
      8 * (load64 demo_proc.mem ((demo_hook.plt_rela + 24 * 1) % W64) / 8)) % W64 = 0x4018 := by
    decide
  have e2 : (demo_hook.plt_got +
      8 * (load64 demo_proc.mem ((demo_hook.plt_rela + 24 * 2) % W64) / 8)) % W64 = 0x4020 := by
    decide
  obtain ⟨hret, hold, hnew, hbytes, hslots, hhook, _⟩ := h
  rw [e1] at hold hnew hbytes hslots
  have s0 := hslots 0
  have s2 := hslots 2
  rw [e0] at s0
  rw [e2] at s2
  have w0 : load64 demo_proc.mem 0x4010 = 0xAAAA := by decide
  have w1 : load64 demo_proc.mem 0x4018 = 0xBBBB := by decide
  have w2 : load64 demo_proc.mem 0x4020 = 0xCCCC := by decide
  have b : demo_proc.mem 0x3001 = 102 := by decide
  rw [w1] at hold
  refine ⟨by decide, by decide, by decide, hret, hold, hnew, ?_, ?_, ?_, hhook⟩
  · rw [s2 (by decide), w2]
  · rw [s0 (by decide), w0]
  · rw [hbytes 0x3001 (by decide), b]

/-- Claim C2, as stated, fails, twice. No record of the example image resolves to a symbol
named `f\0g`, yet the call for that name returns `0`, changes the word at `0x4018` from
`0xBBBB` to `0x1234` and changes the protection flags there.  And for the name `h\0x`,
which no record carries either, the call throws the not-found exception, but the text
that `what()` returns is `Function h`: it does not name the requested function. -/
theorem C2_name_with_nul_is_patched_or_misreported :
    (¬ ∃ k, k < demo_hook.plt_rela_size ∧
      resolves_to demo_hook demo_proc.mem k [102, 0, 103]) ∧
    (qwanplt_replace all_granted demo_hook [102, 0, 103] 0x1234 true demo_proc).ret =
      .ok 0 ∧
    load64 demo_proc.mem 0x4018 = 0xBBBB ∧
    load64 (qwanplt_replace all_granted demo_hook [102, 0, 103] 0x1234 true
      demo_proc).proc.mem 0x4018 = 0x1234 ∧
    (qwanplt_replace all_granted demo_hook [102, 0, 103] 0x1234 true demo_proc).proc.prot
      0x4018 ≠ demo_proc.prot 0x4018 ∧
    (¬ ∃ k, k < demo_hook.plt_rela_size ∧
      resolves_to demo_hook demo_proc.mem k [104, 0, 120]) ∧
    (qwanplt_replace all_granted demo_hook [104, 0, 120] 0x1234 true demo_proc).ret =
      .error ⟨lit "Function " ++ [104, 0, 120] ++ lit " not found in PLT"⟩ ∧
    what_text ⟨lit "Function " ++ [104, 0, 120] ++ lit " not found in PLT"⟩ =
      lit "Function h" := by
  decide

/-- Claim C2, amended. When no relocation record of `[0, plt_rela_size)` resolves to a
symbol whose name is `func_name` cut at its first NUL byte (the whole of `func_name` when
it has no NUL byte), `qwanplt_replace` throws the exception built from the message
`Function <func_name> not found in PLT`; the text that `what()` returns is that message
when `func_name` has no NUL byte, and `Function ` followed by the cut name otherwise;
nothing is stored through `old_func`, and the process state (every byte of memory and
every protection flag) and the handle are the ones before the call. -/
theorem C2_replace_not_found_changes_nothing (pf : Platform) (hook : QwanPLT)
    (func_name : List Byte) (hook_func : Nat) (want_old : Bool) (p : Proc)
    (hno : ¬ ∃ k, k < hook.plt_rela_size ∧
      resolves_to hook p.mem k (func_name.takeWhile (fun c => c ≠ 0))) :
    (qwanplt_replace pf hook func_name hook_func want_old p).ret =
        .error ⟨lit "Function " ++ func_name ++ lit " not found in PLT"⟩ ∧
      what_text ⟨lit "Function " ++ func_name ++ lit " not found in PLT"⟩ =
        (if ∀ c, c ∈ func_name → c ≠ 0 then
          lit "Function " ++ func_name ++ lit " not found in PLT"
         else lit "Function " ++ func_name.takeWhile (fun c => c ≠ 0)) ∧
      (qwanplt_replace pf hook func_name hook_func want_old p).proc.mem = p.mem ∧
      (qwanplt_replace pf hook func_name hook_func want_old p).proc.prot = p.prot ∧
      (qwanplt_replace pf hook func_name hook_func want_old p).old_func = none ∧
      (qwanplt_replace pf hook func_name hook_func want_old p).hook = hook ∧
      ((∀ c, c ∈ func_name → c ≠ 0) →
        func_name.takeWhile (fun c => c ≠ 0) = func_name) := by
  rw [replace_of_no_match pf hook func_name hook_func want_old p
    (fun k hk hm => hno ⟨k, hk, (entry_matches_iff_resolves hook func_name p.mem k).mp hm⟩)]
  exact ⟨rfl, what_text_not_found func_name, rfl, rfl, rfl, rfl, c_str_of_no_nul func_name⟩

/-- Claim C2, instance: no record of the example image resolves to a symbol named `h`;
the call throws `Function h not found in PLT`, `what()` returns that whole text, and the
memory and the protection flags are those of the example image. -/
theorem C2_replace_not_found_changes_nothing_witness :
    (¬ ∃ k, k < demo_hook.plt_rela_size ∧
      resolves_to demo_hook demo_proc.mem k ([104].takeWhile (fun c => c ≠ 0))) ∧
    (qwanplt_replace all_granted demo_hook [104] 0x1234 true demo_proc).ret =
      .error ⟨lit "Function h not found in PLT"⟩ ∧
    what_text ⟨lit "Function h not found in PLT"⟩ = lit "Function h not found in PLT" ∧
    (qwanplt_replace all_granted demo_hook [104] 0x1234 true demo_proc).proc.mem =
      demo_proc.mem ∧
    (qwanplt_replace all_granted demo_hook [104] 0x1234 true demo_proc).proc.prot =
      demo_proc.prot ∧
    (qwanplt_replace all_granted demo_hook [104] 0x1234 true demo_proc).old_func = none ∧
    (qwanplt_replace all_granted demo_hook [104] 0x1234 true demo_proc).hook = demo_hook := by
  have h := C2_replace_not_found_changes_nothing all_granted demo_hook [104] 0x1234 true
    demo_proc (by decide)
  have e : lit "Function " ++ [104] ++ lit " not found in PLT" =
      lit "Function h not found in PLT" := by decide
  obtain ⟨hret, hwhat, hmem, hprot, hold, hhook, _⟩ := h
  rw [e] at hret hwhat
  rw [if_pos (by decide)] at hwhat
  exact ⟨by decide, hret, hwhat, hmem, hprot, hold, hhook⟩

/-- Claim C3, as stated, fails: on the example image, when the first protection change is
granted and the restore is refused, the call throws (`mprotect restore failed`) although
the dispatch slot of the first record named `f` no longer holds the word it held before. -/
theorem C3_restore_refused_slot_already_patched :
    first_match demo_hook [102] demo_proc.mem 1 ∧
    (qwanplt_replace restore_refused demo_hook [102] 0x1234 true demo_proc).ret =
      .error ⟨lit "mprotect restore failed"⟩ ∧
    load64 (qwanplt_replace restore_refused demo_hook [102] 0x1234 true demo_proc).proc.mem
        (got_entry demo_hook demo_proc.mem 1) ≠
      load64 demo_proc.mem (got_entry demo_hook demo_proc.mem 1) := by
  decide

/-- Claim C3, amended. Every call of `qwanplt_replace` ends in exactly one of four ways:
no record matches, the not-found exception is thrown and the process state is untouched;
or, for the first matching record, (a) the first protection change is refused,
`mprotect failed` is thrown and the process state is untouched, (b) the first change is
granted and the restore is refused, `mprotect restore failed` is thrown and the slot
already holds the replacement, (c) both are granted, `0` is returned, the slot holds the
replacement and the previous word is reported when requested. -/
theorem C3_replace_outcomes (pf : Platform) (hook : QwanPLT) (func_name : List Byte)
    (hook_func : Nat) (want_old : Bool) (p : Proc) :
    ((¬ ∃ k, k < hook.plt_rela_size ∧ entry_matches hook func_name p.mem k) ∧
      (qwanplt_replace pf hook func_name hook_func want_old p).ret =
        .error (not_found_error func_name) ∧
      (qwanplt_replace pf hook func_name hook_func want_old p).proc = p) ∨
    (∃ i, first_match hook func_name p.mem i ∧
      ((pf.unprotect_ok = false ∧
          (qwanplt_replace pf hook func_name hook_func want_old p).ret =
            .error ⟨lit "mprotect failed"⟩ ∧
          (qwanplt_replace pf hook func_name hook_func want_old p).proc = p) ∨
       (pf.unprotect_ok = true ∧ pf.restore_ok = false ∧
          (qwanplt_replace pf hook func_name hook_func want_old p).ret =
            .error ⟨lit "mprotect restore failed"⟩ ∧
          load64 (qwanplt_replace pf hook func_name hook_func want_old p).proc.mem
            (got_entry hook p.mem i) = hook_func % W64) ∨
       (pf.unprotect_ok = true ∧ pf.restore_ok = true ∧
          (qwanplt_replace pf hook func_name hook_func want_old p).ret = .ok 0 ∧
          load64 (qwanplt_replace pf hook func_name hook_func want_old p).proc.mem
            (got_entry hook p.mem i) = hook_func % W64 ∧
          (qwanplt_replace pf hook func_name hook_func want_old p).old_func =
            (if want_old then some (load64 p.mem (got_entry hook p.mem i)) else none)))) := by
  by_cases hex : ∃ k, k < hook.plt_rela_size ∧ entry_matches hook func_name p.mem k
  · obtain ⟨i, hi⟩ := exists_first_match hook func_name p.mem hex
    refine Or.inr ⟨i, hi, ?_⟩
    rw [replace_of_first_match pf hook func_name hook_func want_old p i hi]
    cases h1 : pf.unprotect_ok with
    | false =>
      rw [patch_unprotect_refused pf hook hook_func want_old p i h1]
      exact Or.inl ⟨rfl, rfl, rfl⟩
    | true =>
      cases h2 : pf.restore_ok with
      | false =>
        have h := patch_restore_refused pf hook hook_func want_old p i h1 h2
        refine Or.inr (Or.inl ⟨rfl, rfl, h.1, ?_⟩)
        rw [h.2.1]
        exact load64_store64 _ _ _
      | true =>
        rw [patch_granted pf hook hook_func want_old p i h1 h2]
        exact Or.inr (Or.inr ⟨rfl, rfl, rfl, load64_store64 _ _ _, rfl⟩)
  · refine Or.inl ⟨hex, ?_⟩
    rw [replace_of_no_match pf hook func_name hook_func want_old p
      (fun k hk hm => hex ⟨k, hk, hm⟩)]
    exact ⟨rfl, rfl⟩

/-- Claim C7. For a page size `2^k` that fits `size_t`: the page start
`addr & ~(page_size - 1)` of every address is a multiple of the page size with
`page start ≤ addr < page start + page size`; and whenever `qwanplt_replace` returns `0`,
every address of the page of the patched slot, the slot address included, carries exactly
the flags `PROT_READ` afterwards, whatever the flags were before. -/
theorem C7_page_bracketing (k : Nat) (hk : k < 64) :
    (∀ addr, addr < W64 →
      2 ^ k ∣ page_start (2 ^ k) addr ∧ page_start (2 ^ k) addr ≤ addr ∧
        addr < page_start (2 ^ k) addr + 2 ^ k) ∧
    (∀ (pf : Platform) (hook : QwanPLT) (func_name : List Byte) (hook_func : Nat)
        (want_old : Bool) (p : Proc),
      pf.page_size = 2 ^ k →
      (qwanplt_replace pf hook func_name hook_func want_old p).ret = .ok 0 →
      ∃ i, first_match hook func_name p.mem i ∧
        (∀ a, page_start (2 ^ k) (got_entry hook p.mem i) ≤ a →
          a < page_start (2 ^ k) (got_entry hook p.mem i) + 2 ^ k →
          (qwanplt_replace pf hook func_name hook_func want_old p).proc.prot a = PROT_READ) ∧
        (qwanplt_replace pf hook func_name hook_func want_old p).proc.prot
          (got_entry hook p.mem i) = PROT_READ) := by
  have hpos : 0 < 2 ^ k := Nat.two_pow_pos k
  have arith : ∀ addr, addr < W64 →
      2 ^ k ∣ page_start (2 ^ k) addr ∧ page_start (2 ^ k) addr ≤ addr ∧
        addr < page_start (2 ^ k) addr + 2 ^ k := by
    intro addr ha
    rw [page_start_two_pow k addr hk ha]
    have hmod := Nat.mod_lt addr hpos
    have hle := Nat.mod_le addr (2 ^ k)
    refine ⟨?_, Nat.sub_le _ _, by omega⟩
    exact Nat.dvd_sub_mod addr
  refine ⟨arith, ?_⟩
  intro pf hook func_name hook_func want_old p hps hret
  obtain ⟨i, hi⟩ := replace_ok_first_match pf hook func_name hook_func want_old p hret
  have hpatch := replace_of_first_match pf hook func_name hook_func want_old p i hi
  rw [hpatch] at hret
  have h1 : pf.unprotect_ok = true := by
    cases h : pf.unprotect_ok with
    | true => rfl
    | false =>
      rw [patch_unprotect_refused pf hook hook_func want_old p i h] at hret
      exact absurd hret (by simp)
  have h2 : pf.restore_ok = true := by
    cases h : pf.restore_ok with
    | true => rfl
    | false =>
      rw [(patch_restore_refused pf hook hook_func want_old p i h1 h).1] at hret
      exact absurd hret (by simp)
  have hall : ∀ a, page_start (2 ^ k) (got_entry hook p.mem i) ≤ a →
      a < page_start (2 ^ k) (got_entry hook p.mem i) + 2 ^ k →
      (qwanplt_replace pf hook func_name hook_func want_old p).proc.prot a = PROT_READ := by
    intro a ha1 ha2
    rw [hpatch, patch_granted pf hook hook_func want_old p i h1 h2, hps]
    simp only
    rw [if_pos ⟨ha1, ha2⟩]
  have hs := arith (got_entry hook p.mem i) (got_entry_lt hook p.mem i)
  exact ⟨i, hi, hall, hall _ hs.2.1 hs.2.2⟩

/-- Claim C7, instance: 4096-byte pages (`k = 12`), the slot address `0x4018` and the
successful call on the example image. -/
theorem C7_page_bracketing_witness :
    12 < 64 ∧
    (2 ^ 12 ∣ page_start (2 ^ 12) 0x4018 ∧ page_start (2 ^ 12) 0x4018 ≤ 0x4018 ∧
      0x4018 < page_start (2 ^ 12) 0x4018 + 2 ^ 12) ∧
    ∃ i, first_match demo_hook [102] demo_proc.mem i ∧
      (∀ a, page_start (2 ^ 12) (got_entry demo_hook demo_proc.mem i) ≤ a →
        a < page_start (2 ^ 12) (got_entry demo_hook demo_proc.mem i) + 2 ^ 12 →
        (qwanplt_replace all_granted demo_hook [102] 0x1234 true demo_proc).proc.prot a =
          PROT_READ) ∧
      (qwanplt_replace all_granted demo_hook [102] 0x1234 true demo_proc).proc.prot
        (got_entry demo_hook demo_proc.mem i) = PROT_READ :=
  ⟨by decide, (C7_page_bracketing 12 (by decide)).1 0x4018 (by decide),
   (C7_page_bracketing 12 (by decide)).2 all_granted demo_hook [102] 0x1234 true demo_proc
     rfl (by decide)⟩

/-- Claim C8, as stated, fails: the requested name `f\0g` (three bytes held by the
`std::string`) is treated as a match by record 1 of the example image, whose name is `f`;
the name found in the string table is not equal to the whole requested name, and the call
succeeds. -/
theorem C8_truncated_name_matches :
    entry_matches demo_hook [102, 0, 103] demo_proc.mem 1 ∧
    cstring_at demo_proc.mem (name_ptr demo_hook demo_proc.mem 1) [102] ∧
    ¬ cstring_at demo_proc.mem (name_ptr demo_hook demo_proc.mem 1) [102, 0, 103] ∧
    (qwanplt_replace all_granted demo_hook [102, 0, 103] 0x1234 true demo_proc).ret =
      .ok 0 := by
  decide

/-- Claim C8, amended. In every step of the scan, record `i` is treated as a match exactly
when the null-terminated name found at `strtab + st_name` of symbol `ELF_R_SYM(r_info)` is
byte-for-byte equal to the requested name cut at its first NUL byte (the C string that
`c_str()` designates); for a requested name without NUL bytes this is the whole name. -/
theorem C8_match_is_c_string_equality (pf : Platform) (hook : QwanPLT)
    (func_name : List Byte) (hook_func : Nat) (want_old : Bool) (p : Proc) (todo i : Nat) :
    (replace_loop pf hook func_name hook_func want_old p (todo + 1) i =
      if cstring_at p.mem
          ((hook.strtab +
            load32 p.mem ((hook.symtab + 24 * (r_info hook p.mem i / 2 ^ 32)) % W64)) % W64)
          (func_name.takeWhile (fun c => c ≠ 0))
      then patch pf hook hook_func want_old p i
      else replace_loop pf hook func_name hook_func want_old p todo (i + 1)) ∧
    ((∀ c, c ∈ func_name → c ≠ 0) → func_name.takeWhile (fun c => c ≠ 0) = func_name) := by
  refine ⟨?_, c_str_of_no_nul func_name⟩
  rw [replace_loop]
  have h := strcmp_eq_zero_iff p.mem func_name (name_ptr hook p.mem i)
  by_cases hm : strcmp p.mem func_name (name_ptr hook p.mem i) = 0
  · rw [if_pos hm]
    exact (if_pos (h.mp hm)).symm
  · rw [if_neg hm]
    exact (if_neg (fun hc => hm (h.mpr hc))).symm

/-- Claim C9, as stated, fails: with the target offset `0x1C` the byte address used by the
call is `0x4018`, not `plt_got + r_offset = 0x401C`; the word reported through `old_func`
is not the word at `0x401C`, and after the call the word at `0x401C` is not the
replacement. -/
theorem C9_unaligned_offset_rounds_down :
    first_match demo_hook [102] odd_proc.mem 1 ∧
    r_offset demo_hook odd_proc.mem 1 = 0x1C ∧
    got_entry demo_hook odd_proc.mem 1 = 0x4018 ∧
    (demo_hook.plt_got + r_offset demo_hook odd_proc.mem 1) % W64 = 0x401C ∧
    (qwanplt_replace all_granted demo_hook [102] 0x1234 true odd_proc).old_func ≠
      some (load64 odd_proc.mem 0x401C) ∧
    load64 (qwanplt_replace all_granted demo_hook [102] 0x1234 true odd_proc).proc.mem
      0x401C ≠ 0x1234 := by
  decide

/-- Claim C9, amended. For the first matching record, with both protection changes granted,
the previous target is read from, and the replacement is the only word written to, the byte
address `plt_got + 8 * (r_offset / 8)` modulo `2^64`; that address equals
`plt_got + r_offset` modulo `2^64` exactly when `r_offset` is a multiple of the word size
8. -/
theorem C9_slot_address (pf : Platform) (hook : QwanPLT) (func_name : List Byte)
    (hook_func : Nat) (want_old : Bool) (p : Proc) (i : Nat)
    (hi : first_match hook func_name p.mem i)
    (h1 : pf.unprotect_ok = true) (h2 : pf.restore_ok = true) :
    (qwanplt_replace pf hook func_name hook_func want_old p).proc.mem =
        store64 p.mem
          ((hook.plt_got + 8 * (load64 p.mem ((hook.plt_rela + 24 * i) % W64) / 8)) % W64)
          hook_func ∧
      (qwanplt_replace pf hook func_name hook_func want_old p).old_func =
        (if want_old then
          some (load64 p.mem
            ((hook.plt_got + 8 * (load64 p.mem ((hook.plt_rela + 24 * i) % W64) / 8)) % W64))
         else none) ∧
      ((hook.plt_got + 8 * (load64 p.mem ((hook.plt_rela + 24 * i) % W64) / 8)) % W64 =
          (hook.plt_got + load64 p.mem ((hook.plt_rela + 24 * i) % W64)) % W64 ↔
        load64 p.mem ((hook.plt_rela + 24 * i) % W64) % 8 = 0) := by
  rw [replace_of_first_match pf hook func_name hook_func want_old p i hi,
    patch_granted pf hook hook_func want_old p i h1 h2]
  refine ⟨rfl, rfl, ?_⟩
  have hlt := load64_lt p.mem ((hook.plt_rela + 24 * i) % W64)
  simp only [W64] at hlt ⊢
  omega

/-- Claim C9, instance: record 1 of the example image has the target offset `0x18`. -/
theorem C9_slot_address_witness :
    first_match demo_hook [102] demo_proc.mem 1 ∧
    (qwanplt_replace all_granted demo_hook [102] 0x1234 true demo_proc).proc.mem =
        store64 demo_proc.mem
          ((demo_hook.plt_got +
            8 * (load64 demo_proc.mem ((demo_hook.plt_rela + 24 * 1) % W64) / 8)) % W64)
          0x1234 ∧
      (qwanplt_replace all_granted demo_hook [102] 0x1234 true demo_proc).old_func =
        (if true = true then
          some (load64 demo_proc.mem
            ((demo_hook.plt_got +
              8 * (load64 demo_proc.mem ((demo_hook.plt_rela + 24 * 1) % W64) / 8)) % W64))
         else none) ∧
      ((demo_hook.plt_got +
            8 * (load64 demo_proc.mem ((demo_hook.plt_rela + 24 * 1) % W64) / 8)) % W64 =
          (demo_hook.plt_got +
            load64 demo_proc.mem ((demo_hook.plt_rela + 24 * 1) % W64)) % W64 ↔
        load64 demo_proc.mem ((demo_hook.plt_rela + 24 * 1) % W64) % 8 = 0) :=
  ⟨by decide, C9_slot_address all_granted demo_hook [102] 0x1234 true demo_proc 1
    (by decide) rfl rfl⟩

/-- Claim C4, as stated, fails: with a handle whose dispatch slot for `f` lies on the bytes
of the name `f` in the string table, the first call (granted, returning `0`) overwrites the
name, and the second call with the same name throws the not-found exception instead of
succeeding. -/
theorem C4_second_call_fails_when_slot_overlaps_names :
    first_match alias_hook [102] demo_proc.mem 1 ∧
    (qwanplt_replace all_granted alias_hook [102] 0x1234 true demo_proc).ret = .ok 0 ∧
    (qwanplt_replace all_granted alias_hook [102] 0x5678 true
      (qwanplt_replace all_granted alias_hook [102] 0x1234 true demo_proc).proc).ret =
      .error (not_found_error [102]) := by
  decide

/-- Claim C4, amended. Let record `i` be the first record carrying the requested name, and
let its dispatch slot share no byte with the relocation records `0..i`, the `st_name`
fields of their symbols and the name bytes the scan compares. With all protection changes
granted, a call with replacement `r1` followed by a call with replacement `r2` (equal or
not) makes the second call return `0`, select the same record and the same slot, report
`r1` as the previous target when requested, and leave the slot holding `r2` with every
byte outside the slot as before the first call; and when one replacement is used again and
again, every call returns `0` and the slot holds that replacement after each of them. -/
theorem C4_chained_replace (pf1 pf2 : Platform) (hook : QwanPLT) (func_name : List Byte)
    (r1 r2 : Nat) (want1 want2 : Bool) (p : Proc) (i : Nat)
    (hi : first_match hook func_name p.mem i)
    (hsep : slot_apart hook func_name p.mem i)
    (h11 : pf1.unprotect_ok = true) (h12 : pf1.restore_ok = true)
    (h21 : pf2.unprotect_ok = true) (h22 : pf2.restore_ok = true) :
    (qwanplt_replace pf2 hook func_name r2 want2
        (qwanplt_replace pf1 hook func_name r1 want1 p).proc).ret = .ok 0 ∧
      first_match hook func_name (qwanplt_replace pf1 hook func_name r1 want1 p).proc.mem i ∧
      got_entry hook (qwanplt_replace pf1 hook func_name r1 want1 p).proc.mem i =
        got_entry hook p.mem i ∧
      (qwanplt_replace pf2 hook func_name r2 want2
        (qwanplt_replace pf1 hook func_name r1 want1 p).proc).old_func =
        (if want2 then some (r1 % W64) else none) ∧
      load64 (qwanplt_replace pf2 hook func_name r2 want2
        (qwanplt_replace pf1 hook func_name r1 want1 p).proc).proc.mem
        (got_entry hook p.mem i) = r2 % W64 ∧
      (∀ x, ¬ inWord (got_entry hook p.mem i) x →
        (qwanplt_replace pf2 hook func_name r2 want2
          (qwanplt_replace pf1 hook func_name r1 want1 p).proc).proc.mem x = p.mem x) ∧
      (∀ n,
        (qwanplt_replace pf1 hook func_name r1 want1
          (replace_iter pf1 hook func_name r1 want1 p n)).ret = .ok 0 ∧
        load64 (replace_iter pf1 hook func_name r1 want1 p (n + 1)).mem
          (got_entry hook p.mem i) = r1 % W64) := by
  have h0 : patchable hook func_name i (got_entry hook p.mem i) p.mem := ⟨hi, rfl, hsep⟩
  have c1 := replace_patchable pf1 hook func_name r1 want1 p i _ h0 h11 h12
  have hp1 : patchable hook func_name i (got_entry hook p.mem i)
      (qwanplt_replace pf1 hook func_name r1 want1 p).proc.mem := by
    rw [c1.2.2.2]
    exact patchable_store hook func_name i _ r1 _ h0
  have c2 := replace_patchable pf2 hook func_name r2 want2 _ i _ hp1 h21 h22
  refine ⟨c2.1, hp1.1, hp1.2.1, ?_, ?_, ?_, ?_⟩
  · rw [c2.2.1, c1.2.2.2, load64_store64]
  · rw [c2.2.2.2, load64_store64]
  · intro x hx
    rw [c2.2.2.2, store64_outside _ _ _ _ hx, c1.2.2.2, store64_outside _ _ _ _ hx]
  · intro n
    have hn := replace_iter_patchable pf1 hook func_name r1 want1 p i _ h0 h11 h12 n
    have cn := replace_patchable pf1 hook func_name r1 want1 _ i _ hn h11 h12
    refine ⟨cn.1, ?_⟩
    rw [replace_iter, cn.2.2.2, load64_store64]

/-- Claim C4, instance: on the example image the slot `0x4018` of `f` is apart from the
tables; replacing `f` by `0x1234` and then by `0x5678` reports `0x1234` and leaves
`0x5678`. -/
theorem C4_chained_replace_witness :
    first_match demo_hook [102] demo_proc.mem 1 ∧
    slot_apart demo_hook [102] demo_proc.mem 1 ∧
    (qwanplt_replace all_granted demo_hook [102] 0x5678 true
        (qwanplt_replace all_granted demo_hook [102] 0x1234 true demo_proc).proc).ret =
      .ok 0 ∧
    (qwanplt_replace all_granted demo_hook [102] 0x5678 true
        (qwanplt_replace all_granted demo_hook [102] 0x1234 true demo_proc).proc).old_func =
      (if true = true then some (0x1234 % W64) else none) ∧
    load64 (qwanplt_replace all_granted demo_hook [102] 0x5678 true
        (qwanplt_replace all_granted demo_hook [102] 0x1234 true demo_proc).proc).proc.mem
      (got_entry demo_hook demo_proc.mem 1) = 0x5678 % W64 :=
  have h := C4_chained_replace all_granted all_granted demo_hook [102] 0x1234 0x5678 true
    true demo_proc 1 (by decide) (by decide) rfl rfl rfl rfl
  ⟨by decide, by decide, h.1, h.2.2.2.1, h.2.2.2.2.1⟩

/-! ## Claims about `qwanplt_open` -/

/-- Claim C5. Let the steps before the walk succeed and let the memory hold, at the recorded
`dynamic` address, the records `es` followed by a null tag. Then with fuel above the
number of records `qwanplt_open` produces a result; (i) if one of the tags `DT_SYMTAB`,
`DT_STRTAB`, `DT_JMPREL`, `DT_PLTGOT` does not occur in `es`, it throws
`Failed to find required ELF sections`; (ii) if it returns a handle, the four table
addresses are non-null and each is the value of the last record of `es` with its tag;
(iii) any other memory holding the same records and terminator at that address, whatever
it holds after the terminator, gives the same result. -/
theorem C5_metadata_walk (ld : Loader) (library_name : List Byte) (m : Mem) (fuel : Nat)
    (hook0 : QwanPLT) (es : List Dyn) (hd : discover ld library_name = .ok hook0)
    (harr : dyn_array_at m hook0.dynamic es) (hfuel : es.length < fuel) :
    (∃ r, qwanplt_open ld m fuel library_name = some r) ∧
    (∀ tag, tag = DT_SYMTAB ∨ tag = DT_STRTAB ∨ tag = DT_JMPREL ∨ tag = DT_PLTGOT →
      (∀ e, e ∈ es → e.d_tag ≠ tag) →
      qwanplt_open ld m fuel library_name =
        some (.error ⟨lit "Failed to find required ELF sections"⟩)) ∧
    (∀ h, qwanplt_open ld m fuel library_name = some (.ok h) →
      h.symtab ≠ 0 ∧ h.strtab ≠ 0 ∧ h.plt_rela ≠ 0 ∧ h.plt_got ≠ 0 ∧
      last_val es DT_SYMTAB = some h.symtab ∧ last_val es DT_STRTAB = some h.strtab ∧
      last_val es DT_JMPREL = some h.plt_rela ∧ last_val es DT_PLTGOT = some h.plt_got) ∧
    (∀ m2 fuel2, dyn_array_at m2 hook0.dynamic es → es.length < fuel2 →
      qwanplt_open ld m2 fuel2 library_name = qwanplt_open ld m fuel library_name) := by
  have ho := open_eq_of_array ld library_name m fuel hook0 es hd harr hfuel
  obtain ⟨_, z1, z2, z3, z4, _⟩ := discover_ok_fields ld library_name hook0 hd
  obtain ⟨_, _, f1, f2, f3, f4, _⟩ := walk_records_fields es hook0
  rw [z1] at f1; rw [z2] at f2; rw [z3] at f3; rw [z4] at f4
  refine ⟨?_, ?_, ?_, ?_⟩
  · rw [ho]; split_ifs <;> exact ⟨_, rfl⟩
  · intro tag htag hno
    have hn := last_val_eq_none es tag hno
    rw [ho]
    apply if_pos
    rcases htag with h | h | h | h <;> subst h
    · left; rw [f1, hn]; rfl
    · right; left; rw [f2, hn]; rfl
    · right; right; left; rw [f3, hn]; rfl
    · right; right; right; rw [f4, hn]; rfl
  · intro h hh
    obtain ⟨hw, n1, n2, n3, n4⟩ :=
      open_ok_of_array ld library_name m fuel hook0 es hd harr hfuel h hh
    rw [hw] at f1 f2 f3 f4
    have key : ∀ (o : Option Nat) (x : Nat), x = o.getD 0 → x ≠ 0 → o = some x := by
      intro o x hx hx0
      cases o with
      | none => exact absurd hx hx0
      | some v => rw [hx]; rfl
    exact ⟨n1, n2, n3, n4, key _ _ f1 n1, key _ _ f2 n2, key _ _ f3 n3, key _ _ f4 n4⟩
  · intro m2 fuel2 harr2 hfuel2
    rw [ho, open_eq_of_array ld library_name m2 fuel2 hook0 es hd harr2 hfuel2]

/-- Claim C5, instance: the dynamic array `main_dyn` at `0x1010`, in which the symbol table
tag occurs twice and a further record follows the terminator; the handle returned carries
the value `0xA100` of the last symbol table record. -/
theorem C5_metadata_walk_witness :
    discover two_modules [66] = .ok discovered_hook ∧
    dyn_array_at two_modules_mem discovered_hook.dynamic main_dyn ∧
    main_dyn.length < 10 ∧
    opened_hook.symtab ≠ 0 ∧ opened_hook.strtab ≠ 0 ∧ opened_hook.plt_rela ≠ 0 ∧
    opened_hook.plt_got ≠ 0 ∧
    last_val main_dyn DT_SYMTAB = some opened_hook.symtab ∧
    last_val main_dyn DT_STRTAB = some opened_hook.strtab ∧
    last_val main_dyn DT_JMPREL = some opened_hook.plt_rela ∧
    last_val main_dyn DT_PLTGOT = some opened_hook.plt_got :=
  ⟨by decide, by decide, by decide,
   (C5_metadata_walk two_modules [66] two_modules_mem 10 discovered_hook main_dyn
     (by decide) (by decide) (by decide)).2.2.1 opened_hook (by decide)⟩

/-- Claim C6 fails on the code: the loader lists the main program (load bias `0x1000`,
dynamic segment at `0x10`) before the library `B` (load bias `0x2000`, dynamic segment at
`0x20`); `qwanplt_open` called for `B` returns a handle whose `dynamic` is `0x1010`, the
dynamic segment of the main program, and whose tables are those of the main program. -/
theorem C6_open_records_first_module_dynamic :
    two_modules.modules.map (fun info => info.dlpi_name) = [[], [66]] ∧
    qwanplt_open two_modules two_modules_mem 10 [66] = some (.ok opened_hook) ∧
    opened_hook.dynamic = (0x1000 + 0x10) % W64 ∧
    opened_hook.dynamic ≠ (0x2000 + 0x20) % W64 := by
  decide

/-- Claim C10, as stated, fails: in `null_symtab_dyn` the four table tags all occur and the
size tag does not, yet `qwanplt_open` throws `Failed to find required ELF sections`,
because the symbol table tag carries a null address. -/
theorem C10_null_table_address_fails :
    discover two_modules [66] = .ok discovered_hook ∧
    dyn_array_at null_symtab_mem discovered_hook.dynamic null_symtab_dyn ∧
    (∀ tag, tag ∈ [DT_SYMTAB, DT_STRTAB, DT_JMPREL, DT_PLTGOT] →
      ∃ e, e ∈ null_symtab_dyn ∧ e.d_tag = tag) ∧
    (∀ e, e ∈ null_symtab_dyn → e.d_tag ≠ DT_PLTRELSZ) ∧
    qwanplt_open two_modules null_symtab_mem 10 [66] =
      some (.error ⟨lit "Failed to find required ELF sections"⟩) := by
  decide

/-- Claim C10, amended. Under the assumptions of C5 on the dynamic array: every handle
returned by `qwanplt_open` has `plt_rela_size` equal to the value of the last `DT_PLTRELSZ`
record divided by 24 and rounded down, and `0` when no such record occurs; and when no
`DT_PLTRELSZ` record occurs while each of the four table tags has a last record carrying a
non-null address, `qwanplt_open` returns a handle with `plt_rela_size = 0`, on which every
`qwanplt_replace` throws the not-found exception and leaves the process state untouched. -/
theorem C10_relocation_count (ld : Loader) (library_name : List Byte) (m : Mem) (fuel : Nat)
    (hook0 : QwanPLT) (es : List Dyn) (hd : discover ld library_name = .ok hook0)
    (harr : dyn_array_at m hook0.dynamic es) (hfuel : es.length < fuel) :
    (∀ h, qwanplt_open ld m fuel library_name = some (.ok h) →
      h.plt_rela_size =
        match last_val es DT_PLTRELSZ with
        | some v => v / 24
        | none => 0) ∧
    ((∀ e, e ∈ es → e.d_tag ≠ DT_PLTRELSZ) →
      (∀ tag, tag = DT_SYMTAB ∨ tag = DT_STRTAB ∨ tag = DT_JMPREL ∨ tag = DT_PLTGOT →
        ∃ v, last_val es tag = some v ∧ v ≠ 0) →
      ∃ h, qwanplt_open ld m fuel library_name = some (.ok h) ∧ h.plt_rela_size = 0 ∧
        ∀ (pf : Platform) (func_name : List Byte) (hook_func : Nat) (want_old : Bool)
          (p : Proc),
          (qwanplt_replace pf h func_name hook_func want_old p).ret =
            .error ⟨lit "Function " ++ func_name ++ lit " not found in PLT"⟩ ∧
          (qwanplt_replace pf h func_name hook_func want_old p).proc = p) := by
  have ho := open_eq_of_array ld library_name m fuel hook0 es hd harr hfuel
  obtain ⟨_, z1, z2, z3, z4, z5⟩ := discover_ok_fields ld library_name hook0 hd
  obtain ⟨_, _, f1, f2, f3, f4, f5⟩ := walk_records_fields es hook0
  rw [z1] at f1; rw [z2] at f2; rw [z3] at f3; rw [z4] at f4; rw [z5] at f5
  refine ⟨?_, ?_⟩
  · intro h hh
    obtain ⟨hw, _⟩ := open_ok_of_array ld library_name m fuel hook0 es hd harr hfuel h hh
    rw [← hw, f5]
    cases last_val es DT_PLTRELSZ <;> rfl
  · intro hno hall
    obtain ⟨v1, e1, n1⟩ := hall DT_SYMTAB (Or.inl rfl)
    obtain ⟨v2, e2, n2⟩ := hall DT_STRTAB (Or.inr (Or.inl rfl))
    obtain ⟨v3, e3, n3⟩ := hall DT_JMPREL (Or.inr (Or.inr (Or.inl rfl)))
    obtain ⟨v4, e4, n4⟩ := hall DT_PLTGOT (Or.inr (Or.inr (Or.inr rfl)))
    rw [e1] at f1; rw [e2] at f2; rw [e3] at f3; rw [e4] at f4
    rw [last_val_eq_none es DT_PLTRELSZ hno] at f5
    have hc : ¬ ((walk_records hook0 es).symtab = 0 ∨ (walk_records hook0 es).strtab = 0 ∨
        (walk_records hook0 es).plt_rela = 0 ∨ (walk_records hook0 es).plt_got = 0) := by
      rw [f1, f2, f3, f4]
      rintro (h | h | h | h)
      · exact n1 h
      · exact n2 h
      · exact n3 h
      · exact n4 h
    refine ⟨walk_records hook0 es, by rw [ho, if_neg hc], f5, ?_⟩
    intro pf func_name hook_func want_old p
    rw [replace_of_no_match pf _ func_name hook_func want_old p
      (fun k hk => by rw [f5] at hk; exact absurd hk (Nat.not_lt_zero k))]
    exact ⟨rfl, rfl⟩

/-- Claim C10, instance: the dynamic array `no_size_dyn` has the four table tags with
non-null addresses and no size tag; `qwanplt_open` returns a handle with
`plt_rela_size = 0`, and replacing `f` through that handle throws the not-found
exception. -/
theorem C10_relocation_count_witness :
    discover two_modules [66] = .ok discovered_hook ∧
    dyn_array_at no_size_mem discovered_hook.dynamic no_size_dyn ∧
    no_size_dyn.length < 10 ∧
    (∀ e, e ∈ no_size_dyn → e.d_tag ≠ DT_PLTRELSZ) ∧
    ∃ h, qwanplt_open two_modules no_size_mem 10 [66] = some (.ok h) ∧
      h.plt_rela_size = 0 ∧
      (qwanplt_replace all_granted h [102] 0x1234 true demo_proc).ret =
        .error ⟨lit "Function " ++ [102] ++ lit " not found in PLT"⟩ :=
  ⟨by decide, by decide, by decide, by decide,
   match (C10_relocation_count two_modules [66] no_size_mem 10 discovered_hook no_size_dyn
     (by decide) (by decide) (by decide)).2 (by decide)
     (fun tag ht => by
       rcases ht with h | h | h | h <;> subst h <;> exact ⟨_, rfl, by decide⟩) with
   | ⟨h, ho, hz, hr⟩ => ⟨h, ho, hz, (hr all_granted [102] 0x1234 true demo_proc).1⟩⟩

end PLTHook
